import Mathlib

/-!
Shallow embedding of `pkg/processor/runtime/python/py/run_handler.py`
(the run-execution lifecycle of the serverless python runtime).

JSON-like values stand in for python objects; python dicts are modelled
as association lists with python insertion-order update semantics.
External collaborators (json parsing, `get_function_from_source`,
`compose_inputs`, `parse_outputs`, `build_status`, the run-record
refresh/set-status/save operations) are parameters of the embedding,
each of which may raise (`Except`).  Per-invocation constants that the
python code threads through those collaborators (the context object,
the event object, the literal `False` flag of `compose_inputs`,
`context.project`) are absorbed into the collaborator closures.

Observable side effects (collaborator calls, run-record mutations) are
collected in an effect trace so that temporal claims about the handler
can be stated.
-/

namespace RunHandler

/-- JSON-like python values. -/
inductive Val where
  | null : Val
  | bool : Bool → Val
  | num : Int → Val
  | str : String → Val
  | arr : List Val → Val
  | dict : List (String × Val) → Val
deriving Repr

mutual

/-- Decidable equality for `Val`, by structural recursion. -/
def Val.beq : Val → Val → Bool
  | Val.null, Val.null => true
  | Val.bool a, Val.bool b => a == b
  | Val.num a, Val.num b => a == b
  | Val.str a, Val.str b => a == b
  | Val.arr a, Val.arr b => Val.beqList a b
  | Val.dict a, Val.dict b => Val.beqPairs a b
  | _, _ => false

def Val.beqList : List Val → List Val → Bool
  | [], [] => true
  | a :: as, b :: bs => Val.beq a b && Val.beqList as bs
  | _, _ => false

def Val.beqPairs : List (String × Val) → List (String × Val) → Bool
  | [], [] => true
  | (k1, v1) :: as, (k2, v2) :: bs => k1 == k2 && Val.beq v1 v2 && Val.beqPairs as bs
  | _, _ => false

end

mutual

theorem Val.beq_eq : ∀ a b : Val, Val.beq a b = true → a = b
  | Val.null, Val.null, _ => rfl
  | Val.bool a, Val.bool b, h => by
      simp only [Val.beq, beq_iff_eq] at h; rw [h]
  | Val.num a, Val.num b, h => by
      simp only [Val.beq, beq_iff_eq] at h; rw [h]
  | Val.str a, Val.str b, h => by
      simp only [Val.beq, beq_iff_eq] at h; rw [h]
  | Val.arr a, Val.arr b, h => by
      rw [Val.beqList_eq a b h]
  | Val.dict a, Val.dict b, h => by
      rw [Val.beqPairs_eq a b h]

theorem Val.beqList_eq : ∀ a b : List Val, Val.beqList a b = true → a = b
  | [], [], _ => rfl
  | a :: as, b :: bs, h => by
      simp only [Val.beqList, Bool.and_eq_true] at h
      rw [Val.beq_eq a b h.1, Val.beqList_eq as bs h.2]

theorem Val.beqPairs_eq : ∀ a b : List (String × Val), Val.beqPairs a b = true → a = b
  | [], [], _ => rfl
  | (k1, v1) :: as, (k2, v2) :: bs, h => by
      simp only [Val.beqPairs, Bool.and_eq_true, beq_iff_eq] at h
      rw [h.1.1, Val.beq_eq v1 v2 h.1.2, Val.beqPairs_eq as bs h.2]

end

mutual

theorem Val.beq_refl : ∀ a : Val, Val.beq a a = true
  | Val.null => rfl
  | Val.bool a => by simp [Val.beq]
  | Val.num a => by simp [Val.beq]
  | Val.str a => by simp [Val.beq]
  | Val.arr a => Val.beqList_refl a
  | Val.dict a => Val.beqPairs_refl a

theorem Val.beqList_refl : ∀ a : List Val, Val.beqList a a = true
  | [] => rfl
  | a :: as => by
      simp only [Val.beqList, Bool.and_eq_true]
      exact ⟨Val.beq_refl a, Val.beqList_refl as⟩

theorem Val.beqPairs_refl : ∀ a : List (String × Val), Val.beqPairs a a = true
  | [] => rfl
  | (k, v) :: as => by
      simp only [Val.beqPairs, Bool.and_eq_true, beq_self_eq_true, true_and]
      exact ⟨Val.beq_refl v, Val.beqPairs_refl as⟩

end

instance : DecidableEq Val := fun a b =>
  if h : Val.beq a b = true then
    Decidable.isTrue (Val.beq_eq a b h)
  else
    Decidable.isFalse (fun he => h (he ▸ Val.beq_refl a))

/-- First-occurrence lookup in an association list (python dict read,
well-formed dicts hold each key at most once). -/
def dictLookup (d : List (String × Val)) (k : String) : Option Val :=
  match d with
  | [] => none
  | (k2, v) :: rest => if k2 = k then some v else dictLookup rest k

/-- Python `d[k] = v`: replace in place when the key exists, else append. -/
def dictInsert (d : List (String × Val)) (k : String) (v : Val) : List (String × Val) :=
  match d with
  | [] => [(k, v)]
  | (k2, v2) :: rest =>
      if k2 = k then (k2, v) :: rest else (k2, v2) :: dictInsert rest k v

/-- Python key membership test `k in d`. -/
def dictHasKey (d : List (String × Val)) (k : String) : Bool :=
  (dictLookup d k).isSome

/-- Python `{**a, **b}`: entries of `b` update/extend `a`, so `b` wins
on every conflicting key. -/
def pyMerge (a b : List (String × Val)) : List (String × Val) :=
  b.foldl (fun acc kv => dictInsert acc kv.1 kv.2) a

/-- Python `d.get(k, default)`. -/
def dictGetD (d : List (String × Val)) (k : String) (dflt : Val) : Val :=
  match dictLookup d k with
  | some v => v
  | none => dflt

/-- An exception value: class name plus rendered `args` tuple entries. -/
structure ExcInfo where
  name : String
  args : List String
deriving Repr, DecidableEq

/-- Python subscript `v[k]` with a string key: `KeyError` on a missing
dict key, `TypeError` on a non-dict. -/
def getItem (v : Val) (k : String) : Except ExcInfo Val :=
  match v with
  | Val.dict d =>
      match dictLookup d k with
      | some x => Except.ok x
      | none => Except.error { name := "KeyError", args := [k] }
  | _ => Except.error { name := "TypeError", args := ["object is not subscriptable"] }

/-- Python subscript assignment `v[k] = x`: `TypeError` on a non-dict. -/
def setItem (v : Val) (k : String) (x : Val) : Except ExcInfo (List (String × Val)) :=
  match v with
  | Val.dict d => Except.ok (dictInsert d k x)
  | _ => Except.error { name := "TypeError", args := ["object does not support item assignment"] }

/-- The entries of a dict value (empty for non-dicts); used to state
facts about values that python subscript-assignment has shown to be
dicts. -/
def Val.dictOrEmpty : Val → List (String × Val)
  | Val.dict d => d
  | _ => []

/-- Python `list(v)`: keys of a dict, elements of a list, characters of
a string; `TypeError` otherwise. -/
def pyList (v : Val) : Except ExcInfo (List Val) :=
  match v with
  | Val.dict d => Except.ok (d.map fun kv => Val.str kv.1)
  | Val.arr xs => Except.ok xs
  | Val.str s => Except.ok (s.data.map fun c => Val.str (String.singleton c))
  | _ => Except.error { name := "TypeError", args := ["object is not iterable"] }

/-- Python `repr` of a string argument (quotes elided to their shape). -/
def pyQuote (s : String) : String := "\x27" ++ s ++ "\x27"

/-- Comma-join of quoted args, as inside a python tuple repr. -/
def joinQuoted : List String → String
  | [] => ""
  | [a] => pyQuote a
  | a :: b :: rest => pyQuote a ++ ", " ++ joinQuoted (b :: rest)

/-- Rendering of `e.args` inside an f-string: python tuple repr. -/
def renderArgs : List String → String
  | [] => "()"
  | [a] => "(" ++ pyQuote a ++ ",)"
  | a :: b :: rest => "(" ++ joinQuoted (a :: b :: rest) ++ ")"

/-- The uniform failure message `f"Something got wrong during <stage>. \x7be.args\x7d"`. -/
def errMsg (stage : String) (args : List String) : String :=
  "Something got wrong during " ++ stage ++ ". " ++ renderArgs args

/-- The nuclio response object built by the handlers. -/
structure Response where
  body : String
  headers : List (String × String)
  content_type : String
  status_code : Nat
deriving Repr, DecidableEq

/-- `render_error`: log (elided) and build a 500 text/plain response. -/
def render_error (msg : String) : Response :=
  { body := msg, headers := [], content_type := "text/plain", status_code := 500 }

/-- The fixed-shape success response of `handler_job`. -/
def ok_response : Response :=
  { body := "OK", headers := [], content_type := "text/plain", status_code := 200 }

/-- What `handler_job` does for the host: return a response, or let a
python exception escape to the dispatch layer. -/
inductive Outcome where
  | response (r : Response)
  | raised (e : ExcInfo)
deriving Repr, DecidableEq

/-- The inbound event body: raw bytes (to be json-deserialized) or an
already-structured mapping. -/
inductive EventBody where
  | bytes (raw : String)
  | mapping (m : List (String × Val))
deriving Repr, DecidableEq

structure Event where
  body : EventBody
deriving Repr, DecidableEq

/-- Observable side effects of one `handler_job` invocation, in order.
`set_status` and `saveCall` are the run-record mutations; the
`markExecutionFinished` bookkeeping marker of the spec vocabulary is
included so that claims about it can be stated against the trace. -/
inductive Effect where
  | callGetFunction (root : String) (source : Val)
  | callComposeInputs (inputs : Val) (parameters : Val)
  | callFunction (wrapped : Bool) (posArgs : List Val) (kwargs : List (String × Val))
  | callParseOutputs (execResult : Val) (outputNames : List Val) (project : Val)
  | callBuildStatus (results : Val) (outputs : Val)
  | refreshCall
  | set_status (s : List (String × Val))
  | saveCall (update : Bool)
  | markExecutionFinished
deriving Repr, DecidableEq

/-- The resolved user function: whether it carries the `__wrapped__`
marker, and its behavior on (positional args, keyword args). -/
structure Func where
  wrapped : Bool
  call : List Val → List (String × Val) → Except ExcInfo Val

/-- External collaborators of `handler_job`, one invocation.  Each may
raise.  `refresh` yields `context.run.status.to_dict()` as read after a
successful `context.run.refresh()`. -/
structure Env where
  json_loads : String → Except ExcInfo Val
  get_function_from_source : String → Val → Except ExcInfo Func
  compose_inputs : Val → Val → Func → Except ExcInfo (List (String × Val))
  parse_outputs : Val → List Val → Val → Except ExcInfo Val
  build_status : Val → Val → Except ExcInfo (List (String × Val))
  refresh : Except ExcInfo (List (String × Val))
  set_status : List (String × Val) → Except ExcInfo Unit
  save : Except ExcInfo Unit

/-- The per-invocation view of the context object that `handler_job`
reads directly: `context.run.spec.to_dict()` and `context.root`. -/
structure Context where
  run_spec : List (String × Val)
  root : String

/-- Final stage of `handler_job` (the `Set status` block):
`context.run.refresh()`, `new_status = \x7b**status, **context.run.status.to_dict()\x7d`,
`context.run._set_status(new_status)`, `context.run.save(update=True)`. -/
def stage_set_status (env : Env) (status : List (String × Val)) : Outcome × List Effect :=
  match env.refresh with
  | Except.error e =>
      (Outcome.response (render_error (errMsg "run status setting" e.args)), [Effect.refreshCall])
  | Except.ok refreshed =>
    let new_status := pyMerge status refreshed
    match env.set_status new_status with
    | Except.error e =>
        (Outcome.response (render_error (errMsg "run status setting" e.args)),
         [Effect.refreshCall, Effect.set_status new_status])
    | Except.ok _ =>
      match env.save with
      | Except.error e =>
          (Outcome.response (render_error (errMsg "run status setting" e.args)),
           [Effect.refreshCall, Effect.set_status new_status, Effect.saveCall true])
      | Except.ok _ =>
          (Outcome.response ok_response,
           [Effect.refreshCall, Effect.set_status new_status, Effect.saveCall true])

/-- The `Set run status` block: `status = build_status(results, spec.get("outputs", \x7b\x7d))`. -/
def stage_build_status (env : Env) (spec : List (String × Val)) (results : Val) :
    Outcome × List Effect :=
  let outputs := dictGetD spec "outputs" (Val.dict [])
  match env.build_status results outputs with
  | Except.error e =>
      (Outcome.response (render_error (errMsg "building run status" e.args)),
       [Effect.callBuildStatus results outputs])
  | Except.ok status =>
      let next := stage_set_status env status
      (next.1, Effect.callBuildStatus results outputs :: next.2)

/-- The `Execute function` block: wrapped functions are called as
`fnc(project, **fnc_args)`; plain functions as `fnc(**fnc_args)` with
the raw return passed to `parse_outputs(exec_result, list(spec.get("outputs", \x7b\x7d)), project)`. -/
def stage_execute (env : Env) (spec : List (String × Val)) (project : Val) (fnc : Func)
    (fnc_args : List (String × Val)) : Outcome × List Effect :=
  if fnc.wrapped then
    match fnc.call [project] fnc_args with
    | Except.error e =>
        (Outcome.response (render_error (errMsg "function execution" e.args)),
         [Effect.callFunction true [project] fnc_args])
    | Except.ok results =>
        let next := stage_build_status env spec results
        (next.1, Effect.callFunction true [project] fnc_args :: next.2)
  else
    match fnc.call [] fnc_args with
    | Except.error e =>
        (Outcome.response (render_error (errMsg "function execution" e.args)),
         [Effect.callFunction false [] fnc_args])
    | Except.ok exec_result =>
      match pyList (dictGetD spec "outputs" (Val.dict [])) with
      | Except.error e =>
          (Outcome.response (render_error (errMsg "function execution" e.args)),
           [Effect.callFunction false [] fnc_args])
      | Except.ok outputNames =>
        match env.parse_outputs exec_result outputNames project with
        | Except.error e =>
            (Outcome.response (render_error (errMsg "function execution" e.args)),
             [Effect.callFunction false [] fnc_args,
              Effect.callParseOutputs exec_result outputNames project])
        | Except.ok results =>
            let next := stage_build_status env spec results
            (next.1,
             Effect.callFunction false [] fnc_args ::
               Effect.callParseOutputs exec_result outputNames project :: next.2)

/-- The `Set inputs` block: `compose_inputs(spec.get("inputs", \x7b\x7d),
spec.get("parameters", \x7b\x7d), False, fnc, context.project, context, event)`. -/
def stage_inputs (env : Env) (spec : List (String × Val)) (project : Val) (fnc : Func) :
    Outcome × List Effect :=
  let inputs := dictGetD spec "inputs" (Val.dict [])
  let parameters := dictGetD spec "parameters" (Val.dict [])
  match env.compose_inputs inputs parameters fnc with
  | Except.error e =>
      (Outcome.response (render_error (errMsg "function inputs configuration" e.args)),
       [Effect.callComposeInputs inputs parameters])
  | Except.ok fnc_args =>
      let next := stage_execute env spec project fnc fnc_args
      (next.1, Effect.callComposeInputs inputs parameters :: next.2)

/-- The `Configure function` block:
`fnc = get_function_from_source(context.root, spec.get("source", \x7b\x7d))`. -/
def stage_configure (env : Env) (context : Context) (spec : List (String × Val))
    (project : Val) : Outcome × List Effect :=
  let source := dictGetD spec "source" (Val.dict [])
  match env.get_function_from_source context.root source with
  | Except.error e =>
      (Outcome.response (render_error (errMsg "function configuration" e.args)),
       [Effect.callGetFunction context.root source])
  | Except.ok fnc =>
      let next := stage_inputs env spec project fnc
      (next.1, Effect.callGetFunction context.root source :: next.2)

/-- The exception the reference to the unassigned local `body` raises
when `event.body` is not `bytes`. -/
def nameErrorBody : ExcInfo :=
  { name := "NameError", args := ["name \x27body\x27 is not defined"] }

/-- `handler_job(context, event)`.  The `Initialize` section is not
inside any `try`: exceptions raised there escape as `Outcome.raised`.
`body = json.loads(event.body)` is executed only when `event.body` is
`bytes`; otherwise the subsequent read of `body` is an unbound local
(`NameError`).  Then `spec = body["spec"]`,
`spec["inputs"] = context.run.spec.to_dict().get("inputs", \x7b\x7d)`,
`project = body["project"]`, and the five try-guarded stages. -/
def handler_job (env : Env) (context : Context) (event : Event) : Outcome × List Effect :=
  match event.body with
  | EventBody.mapping _ => (Outcome.raised nameErrorBody, [])
  | EventBody.bytes raw =>
    match env.json_loads raw with
    | Except.error e => (Outcome.raised e, [])
    | Except.ok body =>
      match getItem body "spec" with
      | Except.error e => (Outcome.raised e, [])
      | Except.ok spec0 =>
        match setItem spec0 "inputs" (dictGetD context.run_spec "inputs" (Val.dict [])) with
        | Except.error e => (Outcome.raised e, [])
        | Except.ok spec =>
          match getItem body "project" with
          | Except.error e => (Outcome.raised e, [])
          | Except.ok project => stage_configure env context spec project

/-- Python `k in v` for the container shapes `Val` models: key test on
a dict, substring test on a string, membership on a list, `TypeError`
otherwise. -/
def pyContains (k : String) (v : Val) : Except ExcInfo Bool :=
  match v with
  | Val.dict d => Except.ok (dictHasKey d k)
  | Val.str s => Except.ok (decide (k.data <:+: s.data))
  | Val.arr xs => Except.ok (xs.contains (Val.str k))
  | _ => Except.error { name := "TypeError", args := ["argument is not iterable"] }

/-- The resolved init function: its behavior when called with the
context object. -/
structure InitFunc where
  call : Except ExcInfo Unit

/-- Observable side effects of context initialization, in order. -/
inductive InitEffect where
  | pipInstall (req : Val)
  | mkdirRoot
  | saveFunctionSource (path : String)
  | importFunction (path : String) (name : Val)
  | callInitFunction
deriving Repr, DecidableEq

/-- External collaborators of `get_init_function` / `init_context`.
`save_function_source` returns the code directory path;
`parse_handler` splits a handler string into (module path, name);
`import_function` loads the named function from a file. -/
structure InitEnv where
  save_function_source : String → Val → Except ExcInfo String
  parse_handler : Val → Except ExcInfo (String × String)
  import_function : String → Val → Except ExcInfo InitFunc

/-- `get_init_function(path, source_spec)`: returns `None` when the
spec holds no `"init_function"` key; otherwise saves the function
source, parses the handler, and imports the named init function.  Not
try-guarded — exceptions propagate to the caller.  The
`(function_code / handler_path).with_suffix(".py")` path arithmetic is
modelled as string joining (the handler path carries no suffix). -/
def get_init_function (env : InitEnv) (path : String) (source_spec : Val) :
    Except ExcInfo (Option InitFunc) × List InitEffect :=
  match pyContains "init_function" source_spec with
  | Except.error e => (Except.error e, [])
  | Except.ok false => (Except.ok none, [])
  | Except.ok true =>
    match env.save_function_source path source_spec with
    | Except.error e => (Except.error e, [InitEffect.saveFunctionSource path])
    | Except.ok function_code =>
      match getItem source_spec "handler" with
      | Except.error e => (Except.error e, [InitEffect.saveFunctionSource path])
      | Except.ok handlerVal =>
        match env.parse_handler handlerVal with
        | Except.error e => (Except.error e, [InitEffect.saveFunctionSource path])
        | Except.ok parsed =>
          let function_path := function_code ++ "/" ++ parsed.1 ++ ".py"
          match getItem source_spec "init_function" with
          | Except.error e => (Except.error e, [InitEffect.saveFunctionSource path])
          | Except.ok initName =>
            match env.import_function function_path initName with
            | Except.error e =>
                (Except.error e,
                 [InitEffect.saveFunctionSource path,
                  InitEffect.importFunction function_path initName])
            | Except.ok f =>
                (Except.ok (some f),
                 [InitEffect.saveFunctionSource path,
                  InitEffect.importFunction function_path initName])

/-- What `init_context` does: finish normally (python `None`), return
the error response from the init-function `try`, or let an exception
from the unguarded part escape. -/
inductive InitOutcome where
  | done
  | response (r : Response)
  | raised (e : ExcInfo)
deriving Repr, DecidableEq

/-- `init_context(context)`, after the external reads (environment
variables, project and run fetch, attribute setting) whose results are
the `run_spec` parameter (`run.spec.to_dict()`) and the `root` path:
installs each declared requirement, creates the root directory, and
runs the try-guarded init-function step on
`run.spec.to_dict().get("source", \x7b\x7d)`; a failure inside that `try`
is rendered as an `"init function configuration"` error response. -/
def init_context (env : InitEnv) (run_spec : List (String × Val)) (root : String) :
    InitOutcome × List InitEffect :=
  match pyList (dictGetD run_spec "requirements" (Val.arr [])) with
  | Except.error e => (InitOutcome.raised e, [])
  | Except.ok reqs =>
    let tr := reqs.map InitEffect.pipInstall ++ [InitEffect.mkdirRoot]
    match get_init_function env root (dictGetD run_spec "source" (Val.dict [])) with
    | (Except.error e, tr2) =>
        (InitOutcome.response (render_error (errMsg "init function configuration" e.args)),
         tr ++ tr2)
    | (Except.ok none, tr2) => (InitOutcome.done, tr ++ tr2)
    | (Except.ok (some f), tr2) =>
      match f.call with
      | Except.error e =>
          (InitOutcome.response (render_error (errMsg "init function configuration" e.args)),
           tr ++ tr2 ++ [InitEffect.callInitFunction])
      | Except.ok _ => (InitOutcome.done, tr ++ tr2 ++ [InitEffect.callInitFunction])

/-! ### Derived observations on traces and values -/

/-- The human-readable stage descriptions of the five try-guarded stages. -/
def stageDescs : List String :=
  ["function configuration", "function inputs configuration", "function execution",
   "building run status", "run status setting"]

/-- `pat` occurs as a contiguous substring of `s`. -/
def containsStr (s pat : String) : Prop :=
  pat.data <:+: s.data

instance (s pat : String) : Decidable (containsStr s pat) :=
  List.decidableInfix pat.data s.data

/-- The run-record status writes of a trace, in order. -/
def statusWrites (tr : List Effect) : List (List (String × Val)) :=
  tr.filterMap fun e =>
    match e with
    | Effect.set_status s => some s
    | _ => none

/-- The user-function calls of a trace: (wrapped?, positional args, kwargs). -/
def functionCalls (tr : List Effect) : List (Bool × List Val × List (String × Val)) :=
  tr.filterMap fun e =>
    match e with
    | Effect.callFunction w p k => some (w, p, k)
    | _ => none

/-- The `parse_outputs` calls of a trace: (raw result, output names, project). -/
def parseOutputsCalls (tr : List Effect) : List (Val × List Val × Val) :=
  tr.filterMap fun e =>
    match e with
    | Effect.callParseOutputs r n p => some (r, n, p)
    | _ => none

/-- The `build_status` calls of a trace: (results, outputs declaration). -/
def buildStatusCalls (tr : List Effect) : List (Val × Val) :=
  tr.filterMap fun e =>
    match e with
    | Effect.callBuildStatus r o => some (r, o)
    | _ => none

/-! ### Dict lemmas -/

theorem dictLookup_dictInsert (d : List (String × Val)) (k j : String) (v : Val) :
    dictLookup (dictInsert d k v) j = if j = k then some v else dictLookup d j := by
  induction d with
  | nil =>
      simp only [dictInsert, dictLookup]
      by_cases h : k = j
      · rw [if_pos h, if_pos h.symm]
      · rw [if_neg h, if_neg (fun hh => h hh.symm)]
  | cons kv rest ih =>
      obtain ⟨k2, v2⟩ := kv
      by_cases h1 : k2 = k
      · subst h1
        simp only [dictInsert, if_pos rfl, dictLookup]
        by_cases h2 : k2 = j
        · rw [if_pos h2, if_pos h2.symm]
        · rw [if_neg h2, if_neg (fun hh => h2 hh.symm), if_neg h2]
      · simp only [dictInsert, if_neg h1, dictLookup, ih]
        by_cases h2 : k2 = j
        · have hj : ¬ (j = k) := fun hh => h1 (h2.trans hh)
          rw [if_pos h2, if_neg hj, if_pos h2]
        · rw [if_neg h2]
          by_cases h3 : j = k
          · rw [if_pos h3, if_pos h3]
          · rw [if_neg h3, if_neg h3, if_neg h2]

theorem dictLookup_eq_none_of_not_mem (d : List (String × Val)) (k : String)
    (h : k ∉ d.map Prod.fst) : dictLookup d k = none := by
  induction d with
  | nil => rfl
  | cons kv rest ih =>
      obtain ⟨k2, v2⟩ := kv
      simp only [List.map_cons, List.mem_cons, not_or] at h
      simp only [dictLookup]
      rw [if_neg (fun hh => h.1 hh.symm), ih h.2]

/-- Lookup through the python merge `\x7b**a, **b\x7d`: the entries of `b`
win on every key they define (for `b` holding each key once). -/
theorem dictLookup_pyMerge (a b : List (String × Val)) (j : String)
    (hb : (b.map Prod.fst).Nodup) :
    dictLookup (pyMerge a b) j = (dictLookup b j).elim (dictLookup a j) some := by
  induction b generalizing a with
  | nil => simp [pyMerge, dictLookup]
  | cons kv rest ih =>
      obtain ⟨k, v⟩ := kv
      simp only [List.map_cons, List.nodup_cons] at hb
      have hmerge : pyMerge a ((k, v) :: rest) = pyMerge (dictInsert a k v) rest := rfl
      rw [hmerge, ih (dictInsert a k v) hb.2]
      by_cases hj : j = k
      · rw [hj]
        have hnone : dictLookup rest k = none :=
          dictLookup_eq_none_of_not_mem rest k hb.1
        simp [dictLookup, hnone, dictLookup_dictInsert]
      · have hkj : ¬ (k = j) := fun hh => hj hh.symm
        simp only [dictLookup, if_neg hkj]
        rw [dictLookup_dictInsert, if_neg hj]

/-! ### Substring lemmas for the error-message shape -/

theorem containsStr_appendLeft (x s p : String) (h : containsStr s p) :
    containsStr (x ++ s) p := by
  unfold containsStr at *
  rw [String.data_append]
  exact h.trans (List.suffix_append x.data s.data).isInfix

theorem containsStr_appendRight (s y p : String) (h : containsStr s p) :
    containsStr (s ++ y) p := by
  unfold containsStr at *
  rw [String.data_append]
  exact h.trans (List.prefix_append s.data y.data).isInfix

theorem containsStr_refl (s : String) : containsStr s s :=
  List.infix_refl s.data

theorem containsStr_pyQuote (a : String) : containsStr (pyQuote a) a := by
  unfold pyQuote
  exact containsStr_appendRight _ _ _ (containsStr_appendLeft _ _ _ (containsStr_refl a))

theorem containsStr_joinQuoted : ∀ (args : List String) (a : String), a ∈ args →
    containsStr (joinQuoted args) a
  | [x], a, h => by
      simp only [List.mem_singleton] at h
      subst h
      exact containsStr_pyQuote a
  | x :: y :: rest, a, h => by
      rcases List.mem_cons.mp h with h1 | h2
      · subst h1
        unfold joinQuoted
        exact containsStr_appendRight _ _ _ (containsStr_appendRight _ _ _ (containsStr_pyQuote a))
      · unfold joinQuoted
        exact containsStr_appendLeft _ _ _ (containsStr_joinQuoted (y :: rest) a h2)

theorem containsStr_renderArgs : ∀ (args : List String) (a : String), a ∈ args →
    containsStr (renderArgs args) a
  | [x], a, h => by
      simp only [List.mem_singleton] at h
      subst h
      unfold renderArgs
      exact containsStr_appendRight _ _ _ (containsStr_appendLeft _ _ _ (containsStr_pyQuote a))
  | x :: y :: rest, a, h => by
      unfold renderArgs
      exact containsStr_appendRight _ _ _
        (containsStr_appendLeft _ _ _ (containsStr_joinQuoted (x :: y :: rest) a h))

theorem containsStr_errMsg_desc (d : String) (args : List String) :
    containsStr (errMsg d args) d := by
  unfold errMsg
  exact containsStr_appendRight _ _ _
    (containsStr_appendRight _ _ _ (containsStr_appendLeft _ _ _ (containsStr_refl d)))

theorem containsStr_errMsg_arg (d : String) (args : List String) (a : String) (h : a ∈ args) :
    containsStr (errMsg d args) a := by
  unfold errMsg
  exact containsStr_appendLeft _ _ _ (containsStr_renderArgs args a h)

/-! ### Outcome shape of `handler_job` -/

/-- The outcome is a stage-failure response: a 500 whose body is the
uniform error message of one of the five stages. -/
def IsErr (o : Outcome) : Prop :=
  ∃ d args, d ∈ stageDescs ∧ o = Outcome.response (render_error (errMsg d args))

theorem stage_set_status_shape (env : Env) (status : List (String × Val)) :
    (stage_set_status env status).1 = Outcome.response ok_response ∨
      IsErr (stage_set_status env status).1 := by
  rcases hr : env.refresh with e | refreshed
  · refine Or.inr ⟨"run status setting", e.args, by simp [stageDescs], ?_⟩
    simp [stage_set_status, hr]
  · rcases hs : env.set_status (pyMerge status refreshed) with e | u
    · refine Or.inr ⟨"run status setting", e.args, by simp [stageDescs], ?_⟩
      simp [stage_set_status, hr, hs]
    · rcases hv : env.save with e | u2
      · refine Or.inr ⟨"run status setting", e.args, by simp [stageDescs], ?_⟩
        simp [stage_set_status, hr, hs, hv]
      · left
        simp [stage_set_status, hr, hs, hv]

theorem stage_build_status_shape (env : Env) (spec : List (String × Val)) (results : Val) :
    (stage_build_status env spec results).1 = Outcome.response ok_response ∨
      IsErr (stage_build_status env spec results).1 := by
  rcases hb : env.build_status results (dictGetD spec "outputs" (Val.dict [])) with e | status
  · refine Or.inr ⟨"building run status", e.args, by simp [stageDescs], ?_⟩
    simp [stage_build_status, hb]
  · have hred : (stage_build_status env spec results).1 = (stage_set_status env status).1 := by
      simp [stage_build_status, hb]
    rw [hred]
    exact stage_set_status_shape env status

theorem stage_execute_shape (env : Env) (spec : List (String × Val)) (project : Val)
    (fnc : Func) (fnc_args : List (String × Val)) :
    (stage_execute env spec project fnc fnc_args).1 = Outcome.response ok_response ∨
      IsErr (stage_execute env spec project fnc fnc_args).1 := by
  cases hw : fnc.wrapped with
  | true =>
    rcases hc : fnc.call [project] fnc_args with e | results
    · refine Or.inr ⟨"function execution", e.args, by simp [stageDescs], ?_⟩
      simp [stage_execute, hw, hc]
    · have hred : (stage_execute env spec project fnc fnc_args).1 =
          (stage_build_status env spec results).1 := by
        simp [stage_execute, hw, hc]
      rw [hred]
      exact stage_build_status_shape env spec results
  | false =>
    rcases hc : fnc.call [] fnc_args with e | exec_result
    · refine Or.inr ⟨"function execution", e.args, by simp [stageDescs], ?_⟩
      simp [stage_execute, hw, hc]
    · rcases hl : pyList (dictGetD spec "outputs" (Val.dict [])) with e | outputNames
      · refine Or.inr ⟨"function execution", e.args, by simp [stageDescs], ?_⟩
        simp [stage_execute, hw, hc, hl]
      · rcases hp : env.parse_outputs exec_result outputNames project with e | results
        · refine Or.inr ⟨"function execution", e.args, by simp [stageDescs], ?_⟩
          simp [stage_execute, hw, hc, hl, hp]
        · have hred : (stage_execute env spec project fnc fnc_args).1 =
              (stage_build_status env spec results).1 := by
            simp [stage_execute, hw, hc, hl, hp]
          rw [hred]
          exact stage_build_status_shape env spec results

theorem stage_inputs_shape (env : Env) (spec : List (String × Val)) (project : Val)
    (fnc : Func) :
    (stage_inputs env spec project fnc).1 = Outcome.response ok_response ∨
      IsErr (stage_inputs env spec project fnc).1 := by
  rcases hi : env.compose_inputs (dictGetD spec "inputs" (Val.dict []))
      (dictGetD spec "parameters" (Val.dict [])) fnc with e | fnc_args
  · refine Or.inr ⟨"function inputs configuration", e.args, by simp [stageDescs], ?_⟩
    simp [stage_inputs, hi]
  · have hred : (stage_inputs env spec project fnc).1 =
        (stage_execute env spec project fnc fnc_args).1 := by
      simp [stage_inputs, hi]
    rw [hred]
    exact stage_execute_shape env spec project fnc fnc_args

theorem stage_configure_shape (env : Env) (context : Context) (spec : List (String × Val))
    (project : Val) :
    (stage_configure env context spec project).1 = Outcome.response ok_response ∨
      IsErr (stage_configure env context spec project).1 := by
  rcases hg : env.get_function_from_source context.root (dictGetD spec "source" (Val.dict []))
    with e | fnc
  · refine Or.inr ⟨"function configuration", e.args, by simp [stageDescs], ?_⟩
    simp [stage_configure, hg]
  · have hred : (stage_configure env context spec project).1 =
        (stage_inputs env spec project fnc).1 := by
      simp [stage_configure, hg]
    rw [hred]
    exact stage_inputs_shape env spec project fnc

/-- Every invocation either raises out of the unguarded initialize
section, returns the fixed success response, or returns a stage-failure
500. -/
theorem handler_job_shape (env : Env) (context : Context) (event : Event) :
    (∃ e, (handler_job env context event).1 = Outcome.raised e) ∨
      (handler_job env context event).1 = Outcome.response ok_response ∨
      IsErr (handler_job env context event).1 := by
  obtain ⟨b⟩ := event
  cases b with
  | mapping m => exact Or.inl ⟨nameErrorBody, rfl⟩
  | bytes raw =>
    rcases hj : env.json_loads raw with e | body
    · refine Or.inl ⟨e, ?_⟩
      simp [handler_job, hj]
    · rcases hsp : getItem body "spec" with e | spec0
      · refine Or.inl ⟨e, ?_⟩
        simp [handler_job, hj, hsp]
      · rcases hset : setItem spec0 "inputs" (dictGetD context.run_spec "inputs" (Val.dict []))
          with e | spec
        · refine Or.inl ⟨e, ?_⟩
          simp [handler_job, hj, hsp, hset]
        · rcases hpr : getItem body "project" with e | project
          · refine Or.inl ⟨e, ?_⟩
            simp [handler_job, hj, hsp, hset, hpr]
          · have hred : (handler_job env context ⟨EventBody.bytes raw⟩).1 =
                (stage_configure env context spec project).1 := by
              simp [handler_job, hj, hsp, hset, hpr]
            rw [hred]
            rcases stage_configure_shape env context spec project with h | h
            · exact Or.inr (Or.inl h)
            · exact Or.inr (Or.inr h)

/-! ### Status writes of `handler_job` -/

theorem stage_set_status_writes (env : Env) (status : List (String × Val)) :
    statusWrites (stage_set_status env status).2 = [] ∨
      ∃ refreshed, env.refresh = Except.ok refreshed ∧
        statusWrites (stage_set_status env status).2 = [pyMerge status refreshed] := by
  rcases hr : env.refresh with e | refreshed
  · left
    simp [stage_set_status, hr, statusWrites]
  · refine Or.inr ⟨refreshed, rfl, ?_⟩
    rcases hs : env.set_status (pyMerge status refreshed) with e | u
    · simp [stage_set_status, hr, hs, statusWrites]
    · rcases hv : env.save with e | u2
      · simp [stage_set_status, hr, hs, hv, statusWrites]
      · simp [stage_set_status, hr, hs, hv, statusWrites]

theorem stage_build_status_writes (env : Env) (spec : List (String × Val)) (results : Val) :
    statusWrites (stage_build_status env spec results).2 = [] ∨
      ∃ status refreshed,
        env.build_status results (dictGetD spec "outputs" (Val.dict [])) = Except.ok status ∧
        env.refresh = Except.ok refreshed ∧
        statusWrites (stage_build_status env spec results).2 = [pyMerge status refreshed] := by
  rcases hb : env.build_status results (dictGetD spec "outputs" (Val.dict [])) with e | status
  · left
    simp [stage_build_status, hb, statusWrites]
  · have hred : statusWrites (stage_build_status env spec results).2 =
        statusWrites (stage_set_status env status).2 := by
      simp [stage_build_status, hb, statusWrites]
    rcases stage_set_status_writes env status with h2 | ⟨refreshed, hr, h2⟩
    · exact Or.inl (hred.trans h2)
    · exact Or.inr ⟨status, refreshed, rfl, hr, hred.trans h2⟩

theorem stage_execute_writes (env : Env) (spec : List (String × Val)) (project : Val)
    (fnc : Func) (fnc_args : List (String × Val)) :
    statusWrites (stage_execute env spec project fnc fnc_args).2 = [] ∨
      ∃ results status refreshed,
        env.build_status results (dictGetD spec "outputs" (Val.dict [])) = Except.ok status ∧
        env.refresh = Except.ok refreshed ∧
        statusWrites (stage_execute env spec project fnc fnc_args).2 =
          [pyMerge status refreshed] := by
  cases hw : fnc.wrapped with
  | true =>
    rcases hc : fnc.call [project] fnc_args with e | results
    · left
      simp [stage_execute, hw, hc, statusWrites]
    · have hred : statusWrites (stage_execute env spec project fnc fnc_args).2 =
          statusWrites (stage_build_status env spec results).2 := by
        simp [stage_execute, hw, hc, statusWrites]
      rcases stage_build_status_writes env spec results with h2 | ⟨status, refreshed, hb, hr, h2⟩
      · exact Or.inl (hred.trans h2)
      · exact Or.inr ⟨results, status, refreshed, hb, hr, hred.trans h2⟩
  | false =>
    rcases hc : fnc.call [] fnc_args with e | exec_result
    · left
      simp [stage_execute, hw, hc, statusWrites]
    · rcases hl : pyList (dictGetD spec "outputs" (Val.dict [])) with e | outputNames
      · left
        simp [stage_execute, hw, hc, hl, statusWrites]
      · rcases hp : env.parse_outputs exec_result outputNames project with e | results
        · left
          simp [stage_execute, hw, hc, hl, hp, statusWrites]
        · have hred : statusWrites (stage_execute env spec project fnc fnc_args).2 =
              statusWrites (stage_build_status env spec results).2 := by
            simp [stage_execute, hw, hc, hl, hp, statusWrites]
          rcases stage_build_status_writes env spec results with
            h2 | ⟨status, refreshed, hb, hr, h2⟩
          · exact Or.inl (hred.trans h2)
          · exact Or.inr ⟨results, status, refreshed, hb, hr, hred.trans h2⟩

theorem stage_inputs_writes (env : Env) (spec : List (String × Val)) (project : Val)
    (fnc : Func) :
    statusWrites (stage_inputs env spec project fnc).2 = [] ∨
      ∃ results status refreshed,
        env.build_status results (dictGetD spec "outputs" (Val.dict [])) = Except.ok status ∧
        env.refresh = Except.ok refreshed ∧
        statusWrites (stage_inputs env spec project fnc).2 = [pyMerge status refreshed] := by
  rcases hi : env.compose_inputs (dictGetD spec "inputs" (Val.dict []))
      (dictGetD spec "parameters" (Val.dict [])) fnc with e | fnc_args
  · left
    simp [stage_inputs, hi, statusWrites]
  · have hred : statusWrites (stage_inputs env spec project fnc).2 =
        statusWrites (stage_execute env spec project fnc fnc_args).2 := by
      simp [stage_inputs, hi, statusWrites]
    rcases stage_execute_writes env spec project fnc fnc_args with
      h2 | ⟨results, status, refreshed, hb, hr, h2⟩
    · exact Or.inl (hred.trans h2)
    · exact Or.inr ⟨results, status, refreshed, hb, hr, hred.trans h2⟩

theorem stage_configure_writes (env : Env) (context : Context) (spec : List (String × Val))
    (project : Val) :
    statusWrites (stage_configure env context spec project).2 = [] ∨
      ∃ results status refreshed,
        env.build_status results (dictGetD spec "outputs" (Val.dict [])) = Except.ok status ∧
        env.refresh = Except.ok refreshed ∧
        statusWrites (stage_configure env context spec project).2 =
          [pyMerge status refreshed] := by
  rcases hg : env.get_function_from_source context.root (dictGetD spec "source" (Val.dict []))
    with e | fnc
  · left
    simp [stage_configure, hg, statusWrites]
  · have hred : statusWrites (stage_configure env context spec project).2 =
        statusWrites (stage_inputs env spec project fnc).2 := by
      simp [stage_configure, hg, statusWrites]
    rcases stage_inputs_writes env spec project fnc with
      h2 | ⟨results, status, refreshed, hb, hr, h2⟩
    · exact Or.inl (hred.trans h2)
    · exact Or.inr ⟨results, status, refreshed, hb, hr, hred.trans h2⟩

/-- The only run-record status write an invocation can perform is the
single success-path write of the merged status
`pyMerge status refreshed` (python `\x7b**status, **refreshed\x7d`), where
`status` came from `build_status` and `refreshed` from the refresh. -/
theorem handler_job_statusWrites (env : Env) (context : Context) (event : Event) :
    statusWrites (handler_job env context event).2 = [] ∨
      ∃ results outputs status refreshed,
        env.build_status results outputs = Except.ok status ∧
        env.refresh = Except.ok refreshed ∧
        statusWrites (handler_job env context event).2 = [pyMerge status refreshed] := by
  obtain ⟨b⟩ := event
  cases b with
  | mapping m => exact Or.inl rfl
  | bytes raw =>
    rcases hj : env.json_loads raw with e | body
    · left
      simp [handler_job, hj, statusWrites]
    · rcases hsp : getItem body "spec" with e | spec0
      · left
        simp [handler_job, hj, hsp, statusWrites]
      · rcases hset : setItem spec0 "inputs" (dictGetD context.run_spec "inputs" (Val.dict []))
          with e | spec
        · left
          simp [handler_job, hj, hsp, hset, statusWrites]
        · rcases hpr : getItem body "project" with e | project
          · left
            simp [handler_job, hj, hsp, hset, hpr, statusWrites]
          · have hred : statusWrites (handler_job env context ⟨EventBody.bytes raw⟩).2 =
                statusWrites (stage_configure env context spec project).2 := by
              simp [handler_job, hj, hsp, hset, hpr]
            rcases stage_configure_writes env context spec project with
              h2 | ⟨results, status, refreshed, hb, hr, h2⟩
            · exact Or.inl (hred.trans h2)
            · exact Or.inr ⟨results, dictGetD spec "outputs" (Val.dict []),
                status, refreshed, hb, hr, hred.trans h2⟩

/-! ### Call effects of `handler_job` -/

theorem stage_set_status_functionCalls (env : Env) (status : List (String × Val)) :
    functionCalls (stage_set_status env status).2 = [] := by
  rcases hr : env.refresh with e | refreshed
  · simp [stage_set_status, hr, functionCalls]
  · rcases hs : env.set_status (pyMerge status refreshed) with e | u
    · simp [stage_set_status, hr, hs, functionCalls]
    · rcases hv : env.save with e | u2
      · simp [stage_set_status, hr, hs, hv, functionCalls]
      · simp [stage_set_status, hr, hs, hv, functionCalls]

theorem stage_build_status_functionCalls (env : Env) (spec : List (String × Val))
    (results : Val) :
    functionCalls (stage_build_status env spec results).2 = [] := by
  rcases hb : env.build_status results (dictGetD spec "outputs" (Val.dict [])) with e | status
  · simp [stage_build_status, hb, functionCalls]
  · have hred : (stage_build_status env spec results).2 =
        Effect.callBuildStatus results (dictGetD spec "outputs" (Val.dict [])) ::
          (stage_set_status env status).2 := by
      simp [stage_build_status, hb]
    rw [hred]
    exact stage_set_status_functionCalls env status

theorem stage_set_status_parseOutputsCalls (env : Env) (status : List (String × Val)) :
    parseOutputsCalls (stage_set_status env status).2 = [] := by
  rcases hr : env.refresh with e | refreshed
  · simp [stage_set_status, hr, parseOutputsCalls]
  · rcases hs : env.set_status (pyMerge status refreshed) with e | u
    · simp [stage_set_status, hr, hs, parseOutputsCalls]
    · rcases hv : env.save with e | u2
      · simp [stage_set_status, hr, hs, hv, parseOutputsCalls]
      · simp [stage_set_status, hr, hs, hv, parseOutputsCalls]

theorem stage_build_status_parseOutputsCalls (env : Env) (spec : List (String × Val))
    (results : Val) :
    parseOutputsCalls (stage_build_status env spec results).2 = [] := by
  rcases hb : env.build_status results (dictGetD spec "outputs" (Val.dict [])) with e | status
  · simp [stage_build_status, hb, parseOutputsCalls]
  · have hred : (stage_build_status env spec results).2 =
        Effect.callBuildStatus results (dictGetD spec "outputs" (Val.dict [])) ::
          (stage_set_status env status).2 := by
      simp [stage_build_status, hb]
    rw [hred]
    exact stage_set_status_parseOutputsCalls env status

/-- The one user-function call of the execution stage: wrapped functions
get `[project]` as positional arguments, plain functions get none. -/
theorem stage_execute_functionCalls (env : Env) (spec : List (String × Val)) (project : Val)
    (fnc : Func) (fnc_args : List (String × Val)) :
    functionCalls (stage_execute env spec project fnc fnc_args).2 =
      [(fnc.wrapped, if fnc.wrapped = true then [project] else [], fnc_args)] := by
  cases hw : fnc.wrapped with
  | true =>
    rcases hc : fnc.call [project] fnc_args with e | results
    · simp [stage_execute, hw, hc, functionCalls]
    · have hred : (stage_execute env spec project fnc fnc_args).2 =
          Effect.callFunction true [project] fnc_args :: (stage_build_status env spec results).2 := by
        simp [stage_execute, hw, hc]
      rw [hred]
      have htail := stage_build_status_functionCalls env spec results
      simp only [hw, if_pos rfl]
      show (true, [project], fnc_args) :: functionCalls (stage_build_status env spec results).2 =
        [(true, [project], fnc_args)]
      rw [htail]
  | false =>
    rcases hc : fnc.call [] fnc_args with e | exec_result
    · simp [stage_execute, hw, hc, functionCalls]
    · rcases hl : pyList (dictGetD spec "outputs" (Val.dict [])) with e | outputNames
      · simp [stage_execute, hw, hc, hl, functionCalls]
      · rcases hp : env.parse_outputs exec_result outputNames project with e | results
        · simp [stage_execute, hw, hc, hl, hp, functionCalls]
        · have hred : (stage_execute env spec project fnc fnc_args).2 =
              Effect.callFunction false [] fnc_args ::
                Effect.callParseOutputs exec_result outputNames project ::
                  (stage_build_status env spec results).2 := by
            simp [stage_execute, hw, hc, hl, hp]
          rw [hred]
          have htail := stage_build_status_functionCalls env spec results
          simp only [hw, Bool.false_eq_true, if_false]
          show (false, [], fnc_args) :: functionCalls (stage_build_status env spec results).2 =
            [(false, [], fnc_args)]
          rw [htail]

theorem stage_inputs_functionCalls (env : Env) (spec : List (String × Val)) (project : Val)
    (fnc : Func) :
    functionCalls (stage_inputs env spec project fnc).2 = [] ∨
      ∃ fnc_args,
        env.compose_inputs (dictGetD spec "inputs" (Val.dict []))
          (dictGetD spec "parameters" (Val.dict [])) fnc = Except.ok fnc_args ∧
        functionCalls (stage_inputs env spec project fnc).2 =
          [(fnc.wrapped, if fnc.wrapped = true then [project] else [], fnc_args)] := by
  rcases hi : env.compose_inputs (dictGetD spec "inputs" (Val.dict []))
      (dictGetD spec "parameters" (Val.dict [])) fnc with e | fnc_args
  · left
    simp [stage_inputs, hi, functionCalls]
  · refine Or.inr ⟨fnc_args, rfl, ?_⟩
    have hred : (stage_inputs env spec project fnc).2 =
        Effect.callComposeInputs (dictGetD spec "inputs" (Val.dict []))
          (dictGetD spec "parameters" (Val.dict [])) ::
          (stage_execute env spec project fnc fnc_args).2 := by
      simp [stage_inputs, hi]
    rw [hred]
    show functionCalls (stage_execute env spec project fnc fnc_args).2 = _
    exact stage_execute_functionCalls env spec project fnc fnc_args

theorem stage_configure_functionCalls (env : Env) (context : Context)
    (spec : List (String × Val)) (project : Val) :
    functionCalls (stage_configure env context spec project).2 = [] ∨
      ∃ fnc fnc_args,
        env.get_function_from_source context.root (dictGetD spec "source" (Val.dict [])) =
          Except.ok fnc ∧
        env.compose_inputs (dictGetD spec "inputs" (Val.dict []))
          (dictGetD spec "parameters" (Val.dict [])) fnc = Except.ok fnc_args ∧
        functionCalls (stage_configure env context spec project).2 =
          [(fnc.wrapped, if fnc.wrapped = true then [project] else [], fnc_args)] := by
  rcases hg : env.get_function_from_source context.root (dictGetD spec "source" (Val.dict []))
    with e | fnc
  · left
    simp [stage_configure, hg, functionCalls]
  · have hred : functionCalls (stage_configure env context spec project).2 =
        functionCalls (stage_inputs env spec project fnc).2 := by
      have h2 : (stage_configure env context spec project).2 =
          Effect.callGetFunction context.root (dictGetD spec "source" (Val.dict [])) ::
            (stage_inputs env spec project fnc).2 := by
        simp [stage_configure, hg]
      rw [h2]
      rfl
    rcases stage_inputs_functionCalls env spec project fnc with h | ⟨fnc_args, hi, h⟩
    · exact Or.inl (hred.trans h)
    · exact Or.inr ⟨fnc, fnc_args, rfl, hi, hred.trans h⟩

/-- The user-function calls of one invocation: there is at most one,
it happens with the composed kwargs, and its positional arguments are
`[project]` for a wrapped function and `[]` for a plain one, where
`project` is `body["project"]` from the deserialized event body. -/
theorem handler_job_functionCalls (env : Env) (context : Context) (event : Event) :
    functionCalls (handler_job env context event).2 = [] ∨
      ∃ raw body spec0 project fnc fnc_args,
        event.body = EventBody.bytes raw ∧
        env.json_loads raw = Except.ok body ∧
        getItem body "spec" = Except.ok spec0 ∧
        getItem body "project" = Except.ok project ∧
        env.get_function_from_source context.root
          (dictGetD (dictInsert (spec0.dictOrEmpty) "inputs"
              (dictGetD context.run_spec "inputs" (Val.dict []))) "source" (Val.dict [])) =
          Except.ok fnc ∧
        functionCalls (handler_job env context event).2 =
          [(fnc.wrapped, if fnc.wrapped = true then [project] else [], fnc_args)] := by
  obtain ⟨b⟩ := event
  cases b with
  | mapping m => exact Or.inl rfl
  | bytes raw =>
    rcases hj : env.json_loads raw with e | body
    · left
      simp [handler_job, hj, functionCalls]
    · rcases hsp : getItem body "spec" with e | spec0
      · left
        simp [handler_job, hj, hsp, functionCalls]
      · rcases hset : setItem spec0 "inputs" (dictGetD context.run_spec "inputs" (Val.dict []))
          with e | spec
        · left
          simp [handler_job, hj, hsp, hset, functionCalls]
        · rcases hpr : getItem body "project" with e | project
          · left
            simp [handler_job, hj, hsp, hset, hpr, functionCalls]
          · have hred : functionCalls (handler_job env context ⟨EventBody.bytes raw⟩).2 =
                functionCalls (stage_configure env context spec project).2 := by
              simp [handler_job, hj, hsp, hset, hpr]
            have hspec : spec = dictInsert (spec0.dictOrEmpty) "inputs"
                (dictGetD context.run_spec "inputs" (Val.dict [])) := by
              cases spec0 with
              | dict d => simp [setItem] at hset; simp [Val.dictOrEmpty, hset.symm]
              | null => simp [setItem] at hset
              | bool x => simp [setItem] at hset
              | num x => simp [setItem] at hset
              | str x => simp [setItem] at hset
              | arr x => simp [setItem] at hset
            rcases stage_configure_functionCalls env context spec project with
              h | ⟨fnc, fnc_args, hg, hi, h⟩
            · exact Or.inl (hred.trans h)
            · exact Or.inr ⟨raw, body, spec0, project, fnc, fnc_args, rfl, hj, hsp, hpr,
                hspec ▸ hg, hred.trans h⟩

/-! ### Absent effects: no finished-marker, compose calls only in stage two -/

theorem stage_set_status_noMark (env : Env) (status : List (String × Val)) :
    Effect.markExecutionFinished ∉ (stage_set_status env status).2 := by
  rcases hr : env.refresh with e | refreshed
  · simp [stage_set_status, hr]
  · rcases hs : env.set_status (pyMerge status refreshed) with e | u
    · simp [stage_set_status, hr, hs]
    · rcases hv : env.save with e | u2
      · simp [stage_set_status, hr, hs, hv]
      · simp [stage_set_status, hr, hs, hv]

theorem stage_build_status_noMark (env : Env) (spec : List (String × Val)) (results : Val) :
    Effect.markExecutionFinished ∉ (stage_build_status env spec results).2 := by
  rcases hb : env.build_status results (dictGetD spec "outputs" (Val.dict [])) with e | status
  · simp [stage_build_status, hb]
  · have hred : (stage_build_status env spec results).2 =
        Effect.callBuildStatus results (dictGetD spec "outputs" (Val.dict [])) ::
          (stage_set_status env status).2 := by
      simp [stage_build_status, hb]
    rw [hred]
    intro hmem
    rcases List.mem_cons.mp hmem with h | h
    · exact absurd h (by simp)
    · exact stage_set_status_noMark env status h

theorem stage_execute_noMark (env : Env) (spec : List (String × Val)) (project : Val)
    (fnc : Func) (fnc_args : List (String × Val)) :
    Effect.markExecutionFinished ∉ (stage_execute env spec project fnc fnc_args).2 := by
  cases hw : fnc.wrapped with
  | true =>
    rcases hc : fnc.call [project] fnc_args with e | results
    · simp [stage_execute, hw, hc]
    · have hred : (stage_execute env spec project fnc fnc_args).2 =
          Effect.callFunction true [project] fnc_args ::
            (stage_build_status env spec results).2 := by
        simp [stage_execute, hw, hc]
      rw [hred]
      intro hmem
      rcases List.mem_cons.mp hmem with h | h
      · exact absurd h (by simp)
      · exact stage_build_status_noMark env spec results h
  | false =>
    rcases hc : fnc.call [] fnc_args with e | exec_result
    · simp [stage_execute, hw, hc]
    · rcases hl : pyList (dictGetD spec "outputs" (Val.dict [])) with e | outputNames
      · simp [stage_execute, hw, hc, hl]
      · rcases hp : env.parse_outputs exec_result outputNames project with e | results
        · simp [stage_execute, hw, hc, hl, hp]
        · have hred : (stage_execute env spec project fnc fnc_args).2 =
              Effect.callFunction false [] fnc_args ::
                Effect.callParseOutputs exec_result outputNames project ::
                  (stage_build_status env spec results).2 := by
            simp [stage_execute, hw, hc, hl, hp]
          rw [hred]
          intro hmem
          rcases List.mem_cons.mp hmem with h | h
          · exact absurd h (by simp)
          · rcases List.mem_cons.mp h with h2 | h2
            · exact absurd h2 (by simp)
            · exact stage_build_status_noMark env spec results h2

theorem stage_inputs_noMark (env : Env) (spec : List (String × Val)) (project : Val)
    (fnc : Func) :
    Effect.markExecutionFinished ∉ (stage_inputs env spec project fnc).2 := by
  rcases hi : env.compose_inputs (dictGetD spec "inputs" (Val.dict []))
      (dictGetD spec "parameters" (Val.dict [])) fnc with e | fnc_args
  · simp [stage_inputs, hi]
  · have hred : (stage_inputs env spec project fnc).2 =
        Effect.callComposeInputs (dictGetD spec "inputs" (Val.dict []))
          (dictGetD spec "parameters" (Val.dict [])) ::
          (stage_execute env spec project fnc fnc_args).2 := by
      simp [stage_inputs, hi]
    rw [hred]
    intro hmem
    rcases List.mem_cons.mp hmem with h | h
    · exact absurd h (by simp)
    · exact stage_execute_noMark env spec project fnc fnc_args h

theorem stage_configure_noMark (env : Env) (context : Context) (spec : List (String × Val))
    (project : Val) :
    Effect.markExecutionFinished ∉ (stage_configure env context spec project).2 := by
  rcases hg : env.get_function_from_source context.root (dictGetD spec "source" (Val.dict []))
    with e | fnc
  · simp [stage_configure, hg]
  · have hred : (stage_configure env context spec project).2 =
        Effect.callGetFunction context.root (dictGetD spec "source" (Val.dict [])) ::
          (stage_inputs env spec project fnc).2 := by
      simp [stage_configure, hg]
    rw [hred]
    intro hmem
    rcases List.mem_cons.mp hmem with h | h
    · exact absurd h (by simp)
    · exact stage_inputs_noMark env spec project fnc h

theorem handler_job_noMark (env : Env) (context : Context) (event : Event) :
    Effect.markExecutionFinished ∉ (handler_job env context event).2 := by
  obtain ⟨b⟩ := event
  cases b with
  | mapping m => simp [handler_job]
  | bytes raw =>
    rcases hj : env.json_loads raw with e | body
    · simp [handler_job, hj]
    · rcases hsp : getItem body "spec" with e | spec0
      · simp [handler_job, hj, hsp]
      · rcases hset : setItem spec0 "inputs" (dictGetD context.run_spec "inputs" (Val.dict []))
          with e | spec
        · simp [handler_job, hj, hsp, hset]
        · rcases hpr : getItem body "project" with e | project
          · simp [handler_job, hj, hsp, hset, hpr]
          · have hred : (handler_job env context ⟨EventBody.bytes raw⟩).2 =
                (stage_configure env context spec project).2 := by
              simp [handler_job, hj, hsp, hset, hpr]
            rw [hred]
            exact stage_configure_noMark env context spec project

theorem stage_set_status_noCompose (env : Env) (status : List (String × Val))
    (i p : Val) : Effect.callComposeInputs i p ∉ (stage_set_status env status).2 := by
  rcases hr : env.refresh with e | refreshed
  · simp [stage_set_status, hr]
  · rcases hs : env.set_status (pyMerge status refreshed) with e | u
    · simp [stage_set_status, hr, hs]
    · rcases hv : env.save with e | u2
      · simp [stage_set_status, hr, hs, hv]
      · simp [stage_set_status, hr, hs, hv]

theorem stage_build_status_noCompose (env : Env) (spec : List (String × Val)) (results : Val)
    (i p : Val) : Effect.callComposeInputs i p ∉ (stage_build_status env spec results).2 := by
  rcases hb : env.build_status results (dictGetD spec "outputs" (Val.dict [])) with e | status
  · simp [stage_build_status, hb]
  · have hred : (stage_build_status env spec results).2 =
        Effect.callBuildStatus results (dictGetD spec "outputs" (Val.dict [])) ::
          (stage_set_status env status).2 := by
      simp [stage_build_status, hb]
    rw [hred]
    intro hmem
    rcases List.mem_cons.mp hmem with h | h
    · exact absurd h (by simp)
    · exact stage_set_status_noCompose env status i p h

theorem stage_execute_noCompose (env : Env) (spec : List (String × Val)) (project : Val)
    (fnc : Func) (fnc_args : List (String × Val)) (i p : Val) :
    Effect.callComposeInputs i p ∉ (stage_execute env spec project fnc fnc_args).2 := by
  cases hw : fnc.wrapped with
  | true =>
    rcases hc : fnc.call [project] fnc_args with e | results
    · simp [stage_execute, hw, hc]
    · have hred : (stage_execute env spec project fnc fnc_args).2 =
          Effect.callFunction true [project] fnc_args ::
            (stage_build_status env spec results).2 := by
        simp [stage_execute, hw, hc]
      rw [hred]
      intro hmem
      rcases List.mem_cons.mp hmem with h | h
      · exact absurd h (by simp)
      · exact stage_build_status_noCompose env spec results i p h
  | false =>
    rcases hc : fnc.call [] fnc_args with e | exec_result
    · simp [stage_execute, hw, hc]
    · rcases hl : pyList (dictGetD spec "outputs" (Val.dict [])) with e | outputNames
      · simp [stage_execute, hw, hc, hl]
      · rcases hp : env.parse_outputs exec_result outputNames project with e | results
        · simp [stage_execute, hw, hc, hl, hp]
        · have hred : (stage_execute env spec project fnc fnc_args).2 =
              Effect.callFunction false [] fnc_args ::
                Effect.callParseOutputs exec_result outputNames project ::
                  (stage_build_status env spec results).2 := by
            simp [stage_execute, hw, hc, hl, hp]
          rw [hred]
          intro hmem
          rcases List.mem_cons.mp hmem with h | h
          · exact absurd h (by simp)
          · rcases List.mem_cons.mp h with h2 | h2
            · exact absurd h2 (by simp)
            · exact stage_build_status_noCompose env spec results i p h2

theorem stage_inputs_compose_mem (env : Env) (spec : List (String × Val)) (project : Val)
    (fnc : Func) (i p : Val)
    (hmem : Effect.callComposeInputs i p ∈ (stage_inputs env spec project fnc).2) :
    i = dictGetD spec "inputs" (Val.dict []) ∧ p = dictGetD spec "parameters" (Val.dict []) := by
  rcases hi : env.compose_inputs (dictGetD spec "inputs" (Val.dict []))
      (dictGetD spec "parameters" (Val.dict [])) fnc with e | fnc_args
  · have hred : (stage_inputs env spec project fnc).2 =
        [Effect.callComposeInputs (dictGetD spec "inputs" (Val.dict []))
          (dictGetD spec "parameters" (Val.dict []))] := by
      simp [stage_inputs, hi]
    rw [hred] at hmem
    rcases List.mem_singleton.mp hmem with h
    exact ⟨by injection h, by injection h⟩
  · have hred : (stage_inputs env spec project fnc).2 =
        Effect.callComposeInputs (dictGetD spec "inputs" (Val.dict []))
          (dictGetD spec "parameters" (Val.dict [])) ::
          (stage_execute env spec project fnc fnc_args).2 := by
      simp [stage_inputs, hi]
    rw [hred] at hmem
    rcases List.mem_cons.mp hmem with h | h
    · exact ⟨by injection h, by injection h⟩
    · exact absurd h (stage_execute_noCompose env spec project fnc fnc_args i p)

theorem stage_configure_compose_mem (env : Env) (context : Context)
    (spec : List (String × Val)) (project : Val) (i p : Val)
    (hmem : Effect.callComposeInputs i p ∈ (stage_configure env context spec project).2) :
    i = dictGetD spec "inputs" (Val.dict []) ∧ p = dictGetD spec "parameters" (Val.dict []) := by
  rcases hg : env.get_function_from_source context.root (dictGetD spec "source" (Val.dict []))
    with e | fnc
  · have hred : (stage_configure env context spec project).2 =
        [Effect.callGetFunction context.root (dictGetD spec "source" (Val.dict []))] := by
      simp [stage_configure, hg]
    rw [hred] at hmem
    exact absurd (List.mem_singleton.mp hmem) (by simp)
  · have hred : (stage_configure env context spec project).2 =
        Effect.callGetFunction context.root (dictGetD spec "source" (Val.dict [])) ::
          (stage_inputs env spec project fnc).2 := by
      simp [stage_configure, hg]
    rw [hred] at hmem
    rcases List.mem_cons.mp hmem with h | h
    · exact absurd h (by simp)
    · exact stage_inputs_compose_mem env spec project fnc i p h

/-- The compose-inputs call of an invocation always receives the run
record spec inputs (`context.run.spec.to_dict().get("inputs", \x7b\x7d)`),
because `spec["inputs"]` is overwritten before stage two. -/
theorem handler_job_compose_mem (env : Env) (context : Context) (event : Event) (i p : Val)
    (hmem : Effect.callComposeInputs i p ∈ (handler_job env context event).2) :
    i = dictGetD context.run_spec "inputs" (Val.dict []) := by
  obtain ⟨b⟩ := event
  cases b with
  | mapping m => exact absurd hmem (by simp [handler_job])
  | bytes raw =>
    rcases hj : env.json_loads raw with e | body
    · exact absurd hmem (by simp [handler_job, hj])
    · rcases hsp : getItem body "spec" with e | spec0
      · exact absurd hmem (by simp [handler_job, hj, hsp])
      · rcases hset : setItem spec0 "inputs" (dictGetD context.run_spec "inputs" (Val.dict []))
          with e | spec
        · exact absurd hmem (by simp [handler_job, hj, hsp, hset])
        · rcases hpr : getItem body "project" with e | project
          · exact absurd hmem (by simp [handler_job, hj, hsp, hset, hpr])
          · have hred : (handler_job env context ⟨EventBody.bytes raw⟩).2 =
                (stage_configure env context spec project).2 := by
              simp [handler_job, hj, hsp, hset, hpr]
            rw [hred] at hmem
            have hi := (stage_configure_compose_mem env context spec project i p hmem).1
            have hspec : spec = dictInsert (spec0.dictOrEmpty) "inputs"
                (dictGetD context.run_spec "inputs" (Val.dict [])) := by
              cases spec0 with
              | dict d => simp [setItem] at hset; simp [Val.dictOrEmpty, hset.symm]
              | null => simp [setItem] at hset
              | bool x => simp [setItem] at hset
              | num x => simp [setItem] at hset
              | str x => simp [setItem] at hset
              | arr x => simp [setItem] at hset
            rw [hspec] at hi
            rw [hi, dictGetD, dictLookup_dictInsert, if_pos rfl]

/-! ### Concrete invocations (used by counterexamples and witnesses) -/

/-- A plain (non-wrapped) user function returning `42`. -/
def funcPlain : Func := { wrapped := false, call := fun _ _ => Except.ok (Val.num 42) }

/-- A wrapped user function returning `7`. -/
def funcWrapped : Func := { wrapped := true, call := fun _ _ => Except.ok (Val.num 7) }

/-- A plain user function raising `ValueError("bad input")`. -/
def funcRaises : Func :=
  { wrapped := false,
    call := fun _ _ => Except.error { name := "ValueError", args := ["bad input"] } }

/-- The deserialized event body of the sample invocation: a project
name and a spec with inputs, parameters and one declared output. -/
def bodyA : Val :=
  Val.dict [("project", Val.str "p1"),
            ("spec", Val.dict [("inputs", Val.dict [("x", Val.num 1)]),
                               ("parameters", Val.dict []),
                               ("outputs", Val.dict [("y", Val.null)])])]

/-- A deserialized event body that carries no `"spec"` key. -/
def bodyNoSpec : Val := Val.dict [("project", Val.str "p1")]

/-- Sample collaborators: `"EV"` deserializes to `bodyA`, `"EV2"` to
`bodyNoSpec`; all stages succeed; the persisted status read by the
refresh is `\x7bstate: running\x7d` and the built status patch is
`\x7bstate: completed, results: \x7by: art\x7d\x7d`. -/
def envA : Env :=
  { json_loads := fun raw =>
      if raw = "EV" then Except.ok bodyA
      else if raw = "EV2" then Except.ok bodyNoSpec
      else Except.error { name := "JSONDecodeError", args := ["Expecting value"] },
    get_function_from_source := fun _ _ => Except.ok funcPlain,
    compose_inputs := fun _ _ _ => Except.ok [("x", Val.num 5)],
    parse_outputs := fun _ _ _ => Except.ok (Val.dict [("y", Val.str "art")]),
    build_status := fun _ _ =>
      Except.ok [("state", Val.str "completed"), ("results", Val.dict [("y", Val.str "art")])],
    refresh := Except.ok [("state", Val.str "running")],
    set_status := fun _ => Except.ok (),
    save := Except.ok () }

def ctxA : Context := { run_spec := [("inputs", Val.dict [("y", Val.num 2)])], root := "/rt" }

def evA : Event := { body := EventBody.bytes "EV" }

def evNoSpec : Event := { body := EventBody.bytes "EV2" }

/-- `envA` with a failing function-configuration stage. -/
def envFail : Env :=
  { envA with get_function_from_source := fun _ _ =>
      Except.error { name := "RuntimeError", args := ["nope"] } }

/-- `envA` resolving to a wrapped user function. -/
def envWrap : Env :=
  { envA with get_function_from_source := fun _ _ => Except.ok funcWrapped }

/-- `envA` whose user function raises `ValueError("bad input")`. -/
def envVal : Env :=
  { envA with get_function_from_source := fun _ _ => Except.ok funcRaises }

/-- `envA` whose status patch is
`\x7bstate: completed, results: \x7ba: 1\x7d\x7d` (the conflicting key `state`
exhibits the merge direction). -/
def envC2 : Env :=
  { envA with build_status := fun _ _ =>
      Except.ok [("state", Val.str "completed"), ("results", Val.dict [("a", Val.num 1)])] }

/-- The merge the spec words describe for `finalize`: the status patch
wins on key conflicts with the persisted fields, python
`\x7b**persisted, **patch\x7d`.  Stated from the spec sentence, for
comparison against the merge the code performs. -/
def spec_merge_patch_wins (persisted patch : List (String × Val)) : List (String × Val) :=
  pyMerge persisted patch

/-- Sample init collaborators for `get_init_function`. -/
def envInit : InitEnv :=
  { save_function_source := fun _ _ => Except.ok "/code",
    parse_handler := fun _ => Except.ok ("mod", "fn"),
    import_function := fun _ _ => Except.ok { call := Except.ok () } }

/-- `spec` as `handler_job` uses it after the initialize section: the
event spec with its `inputs` entry overwritten by the run record's
spec inputs. -/
def eventSpec (context : Context) (sp0 : List (String × Val)) : List (String × Val) :=
  dictInsert sp0 "inputs" (dictGetD context.run_spec "inputs" (Val.dict []))

/-- The `build_status` call of the status-building stage always happens
(whatever its result), with the stage's results and declared outputs. -/
theorem stage_build_status_buildCall_mem (env : Env) (spec : List (String × Val))
    (results : Val) :
    (results, dictGetD spec "outputs" (Val.dict [])) ∈
      buildStatusCalls (stage_build_status env spec results).2 := by
  rcases hb : env.build_status results (dictGetD spec "outputs" (Val.dict [])) with e | status
  · simp [stage_build_status, hb, buildStatusCalls]
  · have hred : (stage_build_status env spec results).2 =
        Effect.callBuildStatus results (dictGetD spec "outputs" (Val.dict [])) ::
          (stage_set_status env status).2 := by
      simp [stage_build_status, hb]
    rw [hred]
    exact List.mem_cons_self _ _

/-! ### Per-stage outcome equations (reduction on success, exact 500 on failure) -/

/-- Execution stage success: either the wrapped call returned
`results`, or the plain call returned a raw result that `list(...)` of
the declared outputs and `parse_outputs` turned into `results`. -/
def ExecOk (env : Env) (spec : List (String × Val)) (project : Val) (fnc : Func)
    (fnc_args : List (String × Val)) (results : Val) : Prop :=
  (fnc.wrapped = true ∧ fnc.call [project] fnc_args = Except.ok results) ∨
  (fnc.wrapped = false ∧ ∃ exec_result names,
    fnc.call [] fnc_args = Except.ok exec_result ∧
    pyList (dictGetD spec "outputs" (Val.dict [])) = Except.ok names ∧
    env.parse_outputs exec_result names project = Except.ok results)

/-- The outcome is the 500 failure response of stage `d` rendering
exception arguments `args`: status 500, body the uniform message, which
contains the stage description and every exception argument. -/
def FailsWith (o : Outcome) (d : String) (args : List String) : Prop :=
  ∃ r, o = Outcome.response r ∧ r.status_code = 500 ∧ r.body = errMsg d args ∧
    containsStr r.body d ∧ ∀ a ∈ args, containsStr r.body a

theorem failsWith_render (d : String) (args : List String) :
    FailsWith (Outcome.response (render_error (errMsg d args))) d args :=
  ⟨render_error (errMsg d args), rfl, rfl, rfl, containsStr_errMsg_desc d args,
   fun a ha => containsStr_errMsg_arg d args a ha⟩

theorem handler_job_initialize_red (env : Env) (context : Context) (raw : String)
    (body : Val) (sp0 : List (String × Val)) (project : Val)
    (hj : env.json_loads raw = Except.ok body)
    (hsp : getItem body "spec" = Except.ok (Val.dict sp0))
    (hpr : getItem body "project" = Except.ok project) :
    (handler_job env context ⟨EventBody.bytes raw⟩).1 =
      (stage_configure env context (eventSpec context sp0) project).1 := by
  simp [handler_job, hj, hsp, hpr, setItem, eventSpec]

theorem stage_configure_fail (env : Env) (context : Context) (spec : List (String × Val))
    (project : Val) (e : ExcInfo)
    (hg : env.get_function_from_source context.root (dictGetD spec "source" (Val.dict [])) =
      Except.error e) :
    (stage_configure env context spec project).1 =
      Outcome.response (render_error (errMsg "function configuration" e.args)) := by
  simp [stage_configure, hg]

theorem stage_configure_ok_red (env : Env) (context : Context) (spec : List (String × Val))
    (project : Val) (fnc : Func)
    (hg : env.get_function_from_source context.root (dictGetD spec "source" (Val.dict [])) =
      Except.ok fnc) :
    (stage_configure env context spec project).1 = (stage_inputs env spec project fnc).1 := by
  simp [stage_configure, hg]

theorem stage_inputs_fail (env : Env) (spec : List (String × Val)) (project : Val)
    (fnc : Func) (e : ExcInfo)
    (hi : env.compose_inputs (dictGetD spec "inputs" (Val.dict []))
      (dictGetD spec "parameters" (Val.dict [])) fnc = Except.error e) :
    (stage_inputs env spec project fnc).1 =
      Outcome.response (render_error (errMsg "function inputs configuration" e.args)) := by
  simp [stage_inputs, hi]

theorem stage_inputs_ok_red (env : Env) (spec : List (String × Val)) (project : Val)
    (fnc : Func) (fnc_args : List (String × Val))
    (hi : env.compose_inputs (dictGetD spec "inputs" (Val.dict []))
      (dictGetD spec "parameters" (Val.dict [])) fnc = Except.ok fnc_args) :
    (stage_inputs env spec project fnc).1 =
      (stage_execute env spec project fnc fnc_args).1 := by
  simp [stage_inputs, hi]

theorem stage_execute_fail_wrapped (env : Env) (spec : List (String × Val)) (project : Val)
    (fnc : Func) (fnc_args : List (String × Val)) (e : ExcInfo)
    (hw : fnc.wrapped = true) (hc : fnc.call [project] fnc_args = Except.error e) :
    (stage_execute env spec project fnc fnc_args).1 =
      Outcome.response (render_error (errMsg "function execution" e.args)) := by
  simp [stage_execute, hw, hc]

theorem stage_execute_fail_plain_call (env : Env) (spec : List (String × Val)) (project : Val)
    (fnc : Func) (fnc_args : List (String × Val)) (e : ExcInfo)
    (hw : fnc.wrapped = false) (hc : fnc.call [] fnc_args = Except.error e) :
    (stage_execute env spec project fnc fnc_args).1 =
      Outcome.response (render_error (errMsg "function execution" e.args)) := by
  simp [stage_execute, hw, hc]

theorem stage_execute_fail_outputs_list (env : Env) (spec : List (String × Val))
    (project : Val) (fnc : Func) (fnc_args : List (String × Val)) (exec_result : Val)
    (e : ExcInfo) (hw : fnc.wrapped = false)
    (hc : fnc.call [] fnc_args = Except.ok exec_result)
    (hl : pyList (dictGetD spec "outputs" (Val.dict [])) = Except.error e) :
    (stage_execute env spec project fnc fnc_args).1 =
      Outcome.response (render_error (errMsg "function execution" e.args)) := by
  simp [stage_execute, hw, hc, hl]

theorem stage_execute_fail_parse (env : Env) (spec : List (String × Val)) (project : Val)
    (fnc : Func) (fnc_args : List (String × Val)) (exec_result : Val) (names : List Val)
    (e : ExcInfo) (hw : fnc.wrapped = false)
    (hc : fnc.call [] fnc_args = Except.ok exec_result)
    (hl : pyList (dictGetD spec "outputs" (Val.dict [])) = Except.ok names)
    (hp : env.parse_outputs exec_result names project = Except.error e) :
    (stage_execute env spec project fnc fnc_args).1 =
      Outcome.response (render_error (errMsg "function execution" e.args)) := by
  simp [stage_execute, hw, hc, hl, hp]

theorem stage_execute_ok_red (env : Env) (spec : List (String × Val)) (project : Val)
    (fnc : Func) (fnc_args : List (String × Val)) (results : Val)
    (hex : ExecOk env spec project fnc fnc_args results) :
    (stage_execute env spec project fnc fnc_args).1 =
      (stage_build_status env spec results).1 := by
  rcases hex with ⟨hw, hc⟩ | ⟨hw, exec_result, names, hc, hl, hp⟩
  · simp [stage_execute, hw, hc]
  · simp [stage_execute, hw, hc, hl, hp]

theorem stage_build_status_fail (env : Env) (spec : List (String × Val)) (results : Val)
    (e : ExcInfo)
    (hb : env.build_status results (dictGetD spec "outputs" (Val.dict [])) = Except.error e) :
    (stage_build_status env spec results).1 =
      Outcome.response (render_error (errMsg "building run status" e.args)) := by
  simp [stage_build_status, hb]

theorem stage_build_status_ok_red (env : Env) (spec : List (String × Val)) (results : Val)
    (status : List (String × Val))
    (hb : env.build_status results (dictGetD spec "outputs" (Val.dict [])) = Except.ok status) :
    (stage_build_status env spec results).1 = (stage_set_status env status).1 := by
  simp [stage_build_status, hb]

theorem stage_set_status_fail_refresh (env : Env) (status : List (String × Val)) (e : ExcInfo)
    (hr : env.refresh = Except.error e) :
    (stage_set_status env status).1 =
      Outcome.response (render_error (errMsg "run status setting" e.args)) := by
  simp [stage_set_status, hr]

theorem stage_set_status_fail_set (env : Env) (status refreshed : List (String × Val))
    (e : ExcInfo) (hr : env.refresh = Except.ok refreshed)
    (hs : env.set_status (pyMerge status refreshed) = Except.error e) :
    (stage_set_status env status).1 =
      Outcome.response (render_error (errMsg "run status setting" e.args)) := by
  simp [stage_set_status, hr, hs]

theorem stage_set_status_fail_save (env : Env) (status refreshed : List (String × Val))
    (e : ExcInfo) (hr : env.refresh = Except.ok refreshed)
    (hs : env.set_status (pyMerge status refreshed) = Except.ok ())
    (hv : env.save = Except.error e) :
    (stage_set_status env status).1 =
      Outcome.response (render_error (errMsg "run status setting" e.args)) := by
  simp [stage_set_status, hr, hs, hv]

theorem stage_set_status_ok (env : Env) (status refreshed : List (String × Val))
    (hr : env.refresh = Except.ok refreshed)
    (hs : env.set_status (pyMerge status refreshed) = Except.ok ())
    (hv : env.save = Except.ok ()) :
    (stage_set_status env status).1 = Outcome.response ok_response := by
  simp [stage_set_status, hr, hs, hv]

/-- The event spec of the sample invocation. -/
def specA0 : List (String × Val) :=
  [("inputs", Val.dict [("x", Val.num 1)]), ("parameters", Val.dict []),
   ("outputs", Val.dict [("y", Val.null)])]

/-- The full effect trace of the successful sample invocation. -/
def trA : List Effect :=
  [Effect.callGetFunction "/rt" (Val.dict []),
   Effect.callComposeInputs (Val.dict [("y", Val.num 2)]) (Val.dict []),
   Effect.callFunction false [] [("x", Val.num 5)],
   Effect.callParseOutputs (Val.num 42) [Val.str "y"] (Val.str "p1"),
   Effect.callBuildStatus (Val.dict [("y", Val.str "art")]) (Val.dict [("y", Val.null)]),
   Effect.refreshCall,
   Effect.set_status [("state", Val.str "running"), ("results", Val.dict [("y", Val.str "art")])],
   Effect.saveCall true]

/-- The merged status the sample invocation persists. -/
def sA : List (String × Val) :=
  [("state", Val.str "running"), ("results", Val.dict [("y", Val.str "art")])]

/-! ### Claims -/

/-- C1: the spec promises that `handler_job` never lets an exception
escape for any event body form (raw bytes or already-structured
mapping).  The code guards `body = json.loads(event.body)` behind
`isinstance(event.body, bytes)` with no else branch, so for a mapping
body the local `body` is unbound and the very next statement raises
`NameError` to the host — for every environment and context, before
any effect happens. -/
theorem handler_job_mapping_body_raises (env : Env) (context : Context)
    (m : List (String × Val)) :
    handler_job env context { body := EventBody.mapping m } =
      (Outcome.raised nameErrorBody, []) :=
  rfl

/-- C2 counterexample: with status patch
`\x7bstate: completed, results: \x7ba: 1\x7d\x7d` and refreshed persisted status
`\x7bstate: running\x7d`, the status actually written keeps the persisted
`state = running`: it is not the patch-wins merge the spec describes,
and its `state` is not `"completed"`. -/
theorem handler_job_merge_patch_wins_cex :
    statusWrites (handler_job envC2 ctxA evA).2 =
      [[("state", Val.str "running"), ("results", Val.dict [("a", Val.num 1)])]] ∧
    (statusWrites (handler_job envC2 ctxA evA).2 =
      [spec_merge_patch_wins [("state", Val.str "running")]
        [("state", Val.str "completed"), ("results", Val.dict [("a", Val.num 1)])]]) = False ∧
    (dictLookup [("state", Val.str "running"), ("results", Val.dict [("a", Val.num 1)])]
        "state" = some (Val.str "completed")) = False :=
  ⟨by decide, eq_false (by decide), eq_false (by decide)⟩

/-- C2 (amended): the status written to the run record on the success
path is python `\x7b**status, **refreshed\x7d`: the freshly refreshed
persisted status wins on every conflicting key, and the built patch
contributes only the keys the persisted status lacks. -/
theorem handler_job_merged_status_persisted_wins (env : Env) (context : Context)
    (event : Event) (s : List (String × Val))
    (h : statusWrites (handler_job env context event).2 = [s]) :
    ∃ results outputs status refreshed,
      env.build_status results outputs = Except.ok status ∧
      env.refresh = Except.ok refreshed ∧
      s = pyMerge status refreshed ∧
      ((refreshed.map Prod.fst).Nodup → ∀ j,
        dictLookup s j = (dictLookup refreshed j).elim (dictLookup status j) some) := by
  rcases handler_job_statusWrites env context event with
    h0 | ⟨results, outputs, status, refreshed, hb, hr, h0⟩
  · rw [h] at h0
    exact absurd h0 (by simp)
  · rw [h] at h0
    have hs : s = pyMerge status refreshed := by injection h0
    refine ⟨results, outputs, status, refreshed, hb, hr, hs, fun hnd j => ?_⟩
    rw [hs]
    exact dictLookup_pyMerge status refreshed j hnd

theorem handler_job_merged_status_persisted_wins_witness :
    ∃ results outputs status refreshed,
      envA.build_status results outputs = Except.ok status ∧
      envA.refresh = Except.ok refreshed ∧
      sA = pyMerge status refreshed ∧
      ((refreshed.map Prod.fst).Nodup → ∀ j,
        dictLookup sA j = (dictLookup refreshed j).elim (dictLookup status j) some) :=
  handler_job_merged_status_persisted_wins envA ctxA evA sA (by decide)

/-- C3 counterexample: when function configuration fails, the handler
returns the 500 response and performs no status write at all — in
particular no best-effort write recording `state = error`. -/
theorem handler_job_error_status_write_cex :
    (handler_job envFail ctxA evA).1 =
      Outcome.response (render_error (errMsg "function configuration" ["nope"])) ∧
    statusWrites (handler_job envFail ctxA evA).2 = [] ∧
    (∃ s, s ∈ statusWrites (handler_job envFail ctxA evA).2 ∧
        dictLookup s "state" = some (Val.str "error")) = False := by
  refine ⟨by decide, by decide, eq_false ?_⟩
  rintro ⟨s, hs, hl⟩
  have h0 : statusWrites (handler_job envFail ctxA evA).2 = [] := by decide
  rw [h0] at hs
  exact absurd hs (List.not_mem_nil s)

/-- C3 (amended): a failing invocation performs no error-state status
write: the only status write `handler_job` can ever perform is the
success-path write of the merged built status, so a record left in
`running` stays `running` when any earlier stage fails. -/
theorem handler_job_no_error_status_write (env : Env) (context : Context) (event : Event) :
    statusWrites (handler_job env context event).2 = [] ∨
      ∃ results outputs status refreshed,
        env.build_status results outputs = Except.ok status ∧
        env.refresh = Except.ok refreshed ∧
        statusWrites (handler_job env context event).2 = [pyMerge status refreshed] :=
  handler_job_statusWrites env context event

/-- C4 counterexample: even on a fully successful invocation the
execution-finished bookkeeping marker is not called once — it is never
called. -/
theorem handler_job_finished_marker_cex :
    ((handler_job envA ctxA evA).2.count Effect.markExecutionFinished = 1) = False :=
  eq_false (by decide)

/-- C4 (amended): `handler_job` never calls any execution-finished
bookkeeping marker, on any exit path: its trace contains zero such
effects for every environment, context and event. -/
theorem handler_job_no_finished_marker (env : Env) (context : Context) (event : Event) :
    (handler_job env context event).2.count Effect.markExecutionFinished = 0 :=
  List.count_eq_zero.mpr (handler_job_noMark env context event)

/-- C5 counterexample: the wrapped user function is invoked with the
project name as the only positional argument — there is no second
positional run-key argument. -/
theorem handler_job_wrapped_call_cex :
    functionCalls (handler_job envWrap ctxA evA).2 =
      [(true, [Val.str "p1"], [("x", Val.num 5)])] ∧
    (∃ run_key kwargs, functionCalls (handler_job envWrap ctxA evA).2 =
        [(true, [Val.str "p1", run_key], kwargs)]) = False := by
  refine ⟨by decide, eq_false ?_⟩
  rintro ⟨rk, kw, h⟩
  have h0 : functionCalls (handler_job envWrap ctxA evA).2 =
      [(true, [Val.str "p1"], [("x", Val.num 5)])] := by decide
  rw [h0] at h
  simp at h

/-- C5 (amended): a wrapped user function is called as
`fnc(project, **fnc_args)`: the positional arguments are exactly
`[project]` where `project` is `body["project"]` of the deserialized
event body — no run key is passed. -/
theorem handler_job_wrapped_call_project_only (env : Env) (context : Context) (event : Event)
    (pos : List Val) (kw : List (String × Val))
    (hmem : (true, pos, kw) ∈ functionCalls (handler_job env context event).2) :
    ∃ raw body project, event.body = EventBody.bytes raw ∧
      env.json_loads raw = Except.ok body ∧
      getItem body "project" = Except.ok project ∧
      pos = [project] := by
  rcases handler_job_functionCalls env context event with
    h | ⟨raw, body, spec0, project, fnc, fnc_args, hev, hj, hsp, hpr, hg, h⟩
  · rw [h] at hmem
    exact absurd hmem (List.not_mem_nil _)
  · rw [h] at hmem
    have heq := List.mem_singleton.mp hmem
    injection heq with h1 h2
    injection h2 with h3 h4
    refine ⟨raw, body, project, hev, hj, hpr, ?_⟩
    rw [h3, ← h1]
    simp

theorem handler_job_wrapped_call_project_only_witness :
    ∃ raw body project, evA.body = EventBody.bytes raw ∧
      envWrap.json_loads raw = Except.ok body ∧
      getItem body "project" = Except.ok project ∧
      [Val.str "p1"] = [project] :=
  handler_job_wrapped_call_project_only envWrap ctxA evA [Val.str "p1"] [("x", Val.num 5)]
    (by decide)

/-- C6 counterexample: the event spec embeds `inputs = \x7bx: 1\x7d` while
the run record spec holds `inputs = \x7by: 2\x7d`; the compose stage
receives the run record's inputs, not the event's, and an event without
an embedded spec makes the handler raise `KeyError` instead of falling
back to the run record spec. -/
theorem handler_job_event_spec_authoritative_cex :
    Effect.callComposeInputs (Val.dict [("y", Val.num 2)]) (Val.dict [])
        ∈ (handler_job envA ctxA evA).2 ∧
    (∃ p, Effect.callComposeInputs (Val.dict [("x", Val.num 1)]) p
        ∈ (handler_job envA ctxA evA).2) = False ∧
    (handler_job envA ctxA evNoSpec).1 =
      Outcome.raised { name := "KeyError", args := ["spec"] } := by
  refine ⟨by decide, eq_false ?_, by decide⟩
  rintro ⟨p, hp⟩
  have h0 : (handler_job envA ctxA evA).2 = trA := by decide
  rw [h0] at hp
  simp [trA] at hp

/-- C6 (amended): the inputs the compose stage receives are always the
run record's spec inputs (the embedded event spec's `inputs` entry is
overwritten before use), and when the deserialized event body has no
`"spec"` entry the handler raises that exception instead of falling
back to the run record's spec. -/
theorem handler_job_inputs_from_run_record :
    (∀ (env : Env) (context : Context) (event : Event) (i p : Val),
        Effect.callComposeInputs i p ∈ (handler_job env context event).2 →
          i = dictGetD context.run_spec "inputs" (Val.dict [])) ∧
    (∀ (env : Env) (context : Context) (raw : String) (body : Val) (e : ExcInfo),
        env.json_loads raw = Except.ok body →
        getItem body "spec" = Except.error e →
        (handler_job env context { body := EventBody.bytes raw }).1 = Outcome.raised e) := by
  constructor
  · exact fun env context event i p hmem =>
      handler_job_compose_mem env context event i p hmem
  · intro env context raw body e hj hsp
    simp [handler_job, hj, hsp]

theorem handler_job_inputs_from_run_record_witness :
    Val.dict [("y", Val.num 2)] = dictGetD ctxA.run_spec "inputs" (Val.dict []) ∧
    (handler_job envA ctxA { body := EventBody.bytes "EV2" }).1 =
      Outcome.raised { name := "KeyError", args := ["spec"] } :=
  ⟨handler_job_inputs_from_run_record.1 envA ctxA evA
      (Val.dict [("y", Val.num 2)]) (Val.dict []) (by decide),
   handler_job_inputs_from_run_record.2 envA ctxA "EV2" bodyNoSpec
      { name := "KeyError", args := ["spec"] } rfl rfl⟩

/-- C7: for every failure point of every stage — function
configuration, input composition, execution (wrapped call, plain call,
output-name listing, output parsing), status building, and status
setting (refresh, set-status, save) — the handler returns exactly the
500 response whose body is the uniform message of the stage that
actually failed rendering the exception actually raised, so the body
contains that stage's description and every argument of that
exception. -/
theorem handler_job_error_response_contains (env : Env) (context : Context) (raw : String)
    (body : Val) (sp0 : List (String × Val)) (project : Val)
    (hj : env.json_loads raw = Except.ok body)
    (hsp : getItem body "spec" = Except.ok (Val.dict sp0))
    (hpr : getItem body "project" = Except.ok project) :
    (∀ e, env.get_function_from_source context.root
        (dictGetD (eventSpec context sp0) "source" (Val.dict [])) = Except.error e →
      FailsWith (handler_job env context ⟨EventBody.bytes raw⟩).1
        "function configuration" e.args) ∧
    (∀ fnc e, env.get_function_from_source context.root
        (dictGetD (eventSpec context sp0) "source" (Val.dict [])) = Except.ok fnc →
      env.compose_inputs (dictGetD (eventSpec context sp0) "inputs" (Val.dict []))
        (dictGetD (eventSpec context sp0) "parameters" (Val.dict [])) fnc = Except.error e →
      FailsWith (handler_job env context ⟨EventBody.bytes raw⟩).1
        "function inputs configuration" e.args) ∧
    (∀ fnc fnc_args e, env.get_function_from_source context.root
        (dictGetD (eventSpec context sp0) "source" (Val.dict [])) = Except.ok fnc →
      env.compose_inputs (dictGetD (eventSpec context sp0) "inputs" (Val.dict []))
        (dictGetD (eventSpec context sp0) "parameters" (Val.dict [])) fnc =
          Except.ok fnc_args →
      fnc.wrapped = true → fnc.call [project] fnc_args = Except.error e →
      FailsWith (handler_job env context ⟨EventBody.bytes raw⟩).1
        "function execution" e.args) ∧
    (∀ fnc fnc_args e, env.get_function_from_source context.root
        (dictGetD (eventSpec context sp0) "source" (Val.dict [])) = Except.ok fnc →
      env.compose_inputs (dictGetD (eventSpec context sp0) "inputs" (Val.dict []))
        (dictGetD (eventSpec context sp0) "parameters" (Val.dict [])) fnc =
          Except.ok fnc_args →
      fnc.wrapped = false → fnc.call [] fnc_args = Except.error e →
      FailsWith (handler_job env context ⟨EventBody.bytes raw⟩).1
        "function execution" e.args) ∧
    (∀ fnc fnc_args exec_result e, env.get_function_from_source context.root
        (dictGetD (eventSpec context sp0) "source" (Val.dict [])) = Except.ok fnc →
      env.compose_inputs (dictGetD (eventSpec context sp0) "inputs" (Val.dict []))
        (dictGetD (eventSpec context sp0) "parameters" (Val.dict [])) fnc =
          Except.ok fnc_args →
      fnc.wrapped = false → fnc.call [] fnc_args = Except.ok exec_result →
      pyList (dictGetD (eventSpec context sp0) "outputs" (Val.dict [])) = Except.error e →
      FailsWith (handler_job env context ⟨EventBody.bytes raw⟩).1
        "function execution" e.args) ∧
    (∀ fnc fnc_args exec_result names e, env.get_function_from_source context.root
        (dictGetD (eventSpec context sp0) "source" (Val.dict [])) = Except.ok fnc →
      env.compose_inputs (dictGetD (eventSpec context sp0) "inputs" (Val.dict []))
        (dictGetD (eventSpec context sp0) "parameters" (Val.dict [])) fnc =
          Except.ok fnc_args →
      fnc.wrapped = false → fnc.call [] fnc_args = Except.ok exec_result →
      pyList (dictGetD (eventSpec context sp0) "outputs" (Val.dict [])) = Except.ok names →
      env.parse_outputs exec_result names project = Except.error e →
      FailsWith (handler_job env context ⟨EventBody.bytes raw⟩).1
        "function execution" e.args) ∧
    (∀ fnc fnc_args results e, env.get_function_from_source context.root
        (dictGetD (eventSpec context sp0) "source" (Val.dict [])) = Except.ok fnc →
      env.compose_inputs (dictGetD (eventSpec context sp0) "inputs" (Val.dict []))
        (dictGetD (eventSpec context sp0) "parameters" (Val.dict [])) fnc =
          Except.ok fnc_args →
      ExecOk env (eventSpec context sp0) project fnc fnc_args results →
      env.build_status results (dictGetD (eventSpec context sp0) "outputs" (Val.dict [])) =
        Except.error e →
      FailsWith (handler_job env context ⟨EventBody.bytes raw⟩).1
        "building run status" e.args) ∧
    (∀ fnc fnc_args results status e, env.get_function_from_source context.root
        (dictGetD (eventSpec context sp0) "source" (Val.dict [])) = Except.ok fnc →
      env.compose_inputs (dictGetD (eventSpec context sp0) "inputs" (Val.dict []))
        (dictGetD (eventSpec context sp0) "parameters" (Val.dict [])) fnc =
          Except.ok fnc_args →
      ExecOk env (eventSpec context sp0) project fnc fnc_args results →
      env.build_status results (dictGetD (eventSpec context sp0) "outputs" (Val.dict [])) =
        Except.ok status →
      env.refresh = Except.error e →
      FailsWith (handler_job env context ⟨EventBody.bytes raw⟩).1
        "run status setting" e.args) ∧
    (∀ fnc fnc_args results status refreshed e, env.get_function_from_source context.root
        (dictGetD (eventSpec context sp0) "source" (Val.dict [])) = Except.ok fnc →
      env.compose_inputs (dictGetD (eventSpec context sp0) "inputs" (Val.dict []))
        (dictGetD (eventSpec context sp0) "parameters" (Val.dict [])) fnc =
          Except.ok fnc_args →
      ExecOk env (eventSpec context sp0) project fnc fnc_args results →
      env.build_status results (dictGetD (eventSpec context sp0) "outputs" (Val.dict [])) =
        Except.ok status →
      env.refresh = Except.ok refreshed →
      env.set_status (pyMerge status refreshed) = Except.error e →
      FailsWith (handler_job env context ⟨EventBody.bytes raw⟩).1
        "run status setting" e.args) ∧
    (∀ fnc fnc_args results status refreshed e, env.get_function_from_source context.root
        (dictGetD (eventSpec context sp0) "source" (Val.dict [])) = Except.ok fnc →
      env.compose_inputs (dictGetD (eventSpec context sp0) "inputs" (Val.dict []))
        (dictGetD (eventSpec context sp0) "parameters" (Val.dict [])) fnc =
          Except.ok fnc_args →
      ExecOk env (eventSpec context sp0) project fnc fnc_args results →
      env.build_status results (dictGetD (eventSpec context sp0) "outputs" (Val.dict [])) =
        Except.ok status →
      env.refresh = Except.ok refreshed →
      env.set_status (pyMerge status refreshed) = Except.ok () →
      env.save = Except.error e →
      FailsWith (handler_job env context ⟨EventBody.bytes raw⟩).1
        "run status setting" e.args) := by
  have hred := handler_job_initialize_red env context raw body sp0 project hj hsp hpr
  refine ⟨?_, ?_, ?_, ?_, ?_, ?_, ?_, ?_, ?_, ?_⟩
  · intro e hg
    rw [hred, stage_configure_fail env context (eventSpec context sp0) project e hg]
    exact failsWith_render _ _
  · intro fnc e hg hi
    rw [hred, stage_configure_ok_red env context (eventSpec context sp0) project fnc hg,
      stage_inputs_fail env (eventSpec context sp0) project fnc e hi]
    exact failsWith_render _ _
  · intro fnc fnc_args e hg hi hw hc
    rw [hred, stage_configure_ok_red env context (eventSpec context sp0) project fnc hg,
      stage_inputs_ok_red env (eventSpec context sp0) project fnc fnc_args hi,
      stage_execute_fail_wrapped env (eventSpec context sp0) project fnc fnc_args e hw hc]
    exact failsWith_render _ _
  · intro fnc fnc_args e hg hi hw hc
    rw [hred, stage_configure_ok_red env context (eventSpec context sp0) project fnc hg,
      stage_inputs_ok_red env (eventSpec context sp0) project fnc fnc_args hi,
      stage_execute_fail_plain_call env (eventSpec context sp0) project fnc fnc_args e hw hc]
    exact failsWith_render _ _
  · intro fnc fnc_args exec_result e hg hi hw hc hl
    rw [hred, stage_configure_ok_red env context (eventSpec context sp0) project fnc hg,
      stage_inputs_ok_red env (eventSpec context sp0) project fnc fnc_args hi,
      stage_execute_fail_outputs_list env (eventSpec context sp0) project fnc fnc_args
        exec_result e hw hc hl]
    exact failsWith_render _ _
  · intro fnc fnc_args exec_result names e hg hi hw hc hl hp
    rw [hred, stage_configure_ok_red env context (eventSpec context sp0) project fnc hg,
      stage_inputs_ok_red env (eventSpec context sp0) project fnc fnc_args hi,
      stage_execute_fail_parse env (eventSpec context sp0) project fnc fnc_args
        exec_result names e hw hc hl hp]
    exact failsWith_render _ _
  · intro fnc fnc_args results e hg hi hex hb
    rw [hred, stage_configure_ok_red env context (eventSpec context sp0) project fnc hg,
      stage_inputs_ok_red env (eventSpec context sp0) project fnc fnc_args hi,
      stage_execute_ok_red env (eventSpec context sp0) project fnc fnc_args results hex,
      stage_build_status_fail env (eventSpec context sp0) results e hb]
    exact failsWith_render _ _
  · intro fnc fnc_args results status e hg hi hex hb hr
    rw [hred, stage_configure_ok_red env context (eventSpec context sp0) project fnc hg,
      stage_inputs_ok_red env (eventSpec context sp0) project fnc fnc_args hi,
      stage_execute_ok_red env (eventSpec context sp0) project fnc fnc_args results hex,
      stage_build_status_ok_red env (eventSpec context sp0) results status hb,
      stage_set_status_fail_refresh env status e hr]
    exact failsWith_render _ _
  · intro fnc fnc_args results status refreshed e hg hi hex hb hr hs
    rw [hred, stage_configure_ok_red env context (eventSpec context sp0) project fnc hg,
      stage_inputs_ok_red env (eventSpec context sp0) project fnc fnc_args hi,
      stage_execute_ok_red env (eventSpec context sp0) project fnc fnc_args results hex,
      stage_build_status_ok_red env (eventSpec context sp0) results status hb,
      stage_set_status_fail_set env status refreshed e hr hs]
    exact failsWith_render _ _
  · intro fnc fnc_args results status refreshed e hg hi hex hb hr hs hv
    rw [hred, stage_configure_ok_red env context (eventSpec context sp0) project fnc hg,
      stage_inputs_ok_red env (eventSpec context sp0) project fnc fnc_args hi,
      stage_execute_ok_red env (eventSpec context sp0) project fnc fnc_args results hex,
      stage_build_status_ok_red env (eventSpec context sp0) results status hb,
      stage_set_status_fail_save env status refreshed e hr hs hv]
    exact failsWith_render _ _

theorem handler_job_error_response_contains_witness :
    FailsWith (handler_job envVal ctxA ⟨EventBody.bytes "EV"⟩).1
      "function execution" ["bad input"] :=
  (handler_job_error_response_contains envVal ctxA "EV" bodyA specA0 (Val.str "p1")
      rfl rfl rfl).2.2.2.1 funcRaises [("x", Val.num 5)]
    { name := "ValueError", args := ["bad input"] } rfl rfl rfl rfl

/-- C8: calling conventions.  A plain function is called with no
positional arguments and its raw return goes through `parse_outputs`
against the declared output names before reaching `build_status`; a
wrapped function is called with `[project]` positionally, no
`parse_outputs` call ever happens, and its raw return reaches
`build_status` directly. -/
theorem handler_job_calling_conventions (env : Env) (context : Context) (raw : String)
    (body : Val) (sp0 : List (String × Val)) (project : Val) (fnc : Func)
    (fnc_args : List (String × Val))
    (hj : env.json_loads raw = Except.ok body)
    (hsp : getItem body "spec" = Except.ok (Val.dict sp0))
    (hpr : getItem body "project" = Except.ok project)
    (hg : env.get_function_from_source context.root
      (dictGetD (eventSpec context sp0) "source" (Val.dict [])) = Except.ok fnc)
    (hi : env.compose_inputs (dictGetD (eventSpec context sp0) "inputs" (Val.dict []))
      (dictGetD (eventSpec context sp0) "parameters" (Val.dict [])) fnc =
        Except.ok fnc_args) :
    (fnc.wrapped = false →
      ∀ res, fnc.call [] fnc_args = Except.ok res →
      ∀ names, pyList (dictGetD (eventSpec context sp0) "outputs" (Val.dict [])) =
          Except.ok names →
        (false, [], fnc_args) ∈
            functionCalls (handler_job env context ⟨EventBody.bytes raw⟩).2 ∧
        (res, names, project) ∈
            parseOutputsCalls (handler_job env context ⟨EventBody.bytes raw⟩).2 ∧
        ∀ mres, env.parse_outputs res names project = Except.ok mres →
          (mres, dictGetD (eventSpec context sp0) "outputs" (Val.dict [])) ∈
            buildStatusCalls (handler_job env context ⟨EventBody.bytes raw⟩).2) ∧
    (fnc.wrapped = true →
      ∀ res, fnc.call [project] fnc_args = Except.ok res →
        (true, [project], fnc_args) ∈
            functionCalls (handler_job env context ⟨EventBody.bytes raw⟩).2 ∧
        parseOutputsCalls (handler_job env context ⟨EventBody.bytes raw⟩).2 = [] ∧
        (res, dictGetD (eventSpec context sp0) "outputs" (Val.dict [])) ∈
          buildStatusCalls (handler_job env context ⟨EventBody.bytes raw⟩).2) := by
  simp only [eventSpec] at hg hi
  have hred : (handler_job env context ⟨EventBody.bytes raw⟩).2 =
      Effect.callGetFunction context.root
          (dictGetD (eventSpec context sp0) "source" (Val.dict [])) ::
        Effect.callComposeInputs (dictGetD (eventSpec context sp0) "inputs" (Val.dict []))
          (dictGetD (eventSpec context sp0) "parameters" (Val.dict [])) ::
        (stage_execute env (eventSpec context sp0) project fnc fnc_args).2 := by
    simp [handler_job, hj, hsp, hpr, setItem, stage_configure, hg, stage_inputs, hi, eventSpec]
  constructor
  · intro hw res hcall names hnames
    have hred2 : (stage_execute env (eventSpec context sp0) project fnc fnc_args).2 =
        Effect.callFunction false [] fnc_args ::
          Effect.callParseOutputs res names project ::
            (match env.parse_outputs res names project with
             | Except.error _ => ([] : List Effect)
             | Except.ok mres => (stage_build_status env (eventSpec context sp0) mres).2) := by
      rcases hp : env.parse_outputs res names project with e | mres
      · simp [stage_execute, hw, hcall, hnames, hp]
      · simp [stage_execute, hw, hcall, hnames, hp]
    rw [hred, hred2]
    refine ⟨by simp [functionCalls], by simp [parseOutputsCalls], ?_⟩
    intro mres hmres
    rw [hmres]
    show (mres, dictGetD (eventSpec context sp0) "outputs" (Val.dict [])) ∈
      buildStatusCalls (stage_build_status env (eventSpec context sp0) mres).2
    exact stage_build_status_buildCall_mem env (eventSpec context sp0) mres
  · intro hw res hcall
    have hred2 : (stage_execute env (eventSpec context sp0) project fnc fnc_args).2 =
        Effect.callFunction true [project] fnc_args ::
          (stage_build_status env (eventSpec context sp0) res).2 := by
      simp [stage_execute, hw, hcall]
    rw [hred, hred2]
    refine ⟨by simp [functionCalls], ?_, ?_⟩
    · show parseOutputsCalls (stage_build_status env (eventSpec context sp0) res).2 = []
      exact stage_build_status_parseOutputsCalls env (eventSpec context sp0) res
    · show (res, dictGetD (eventSpec context sp0) "outputs" (Val.dict [])) ∈
        buildStatusCalls (stage_build_status env (eventSpec context sp0) res).2
      exact stage_build_status_buildCall_mem env (eventSpec context sp0) res

theorem handler_job_calling_conventions_witness :
    (false, [], [("x", Val.num 5)]) ∈
        functionCalls (handler_job envA ctxA ⟨EventBody.bytes "EV"⟩).2 ∧
    (Val.num 42, [Val.str "y"], Val.str "p1") ∈
        parseOutputsCalls (handler_job envA ctxA ⟨EventBody.bytes "EV"⟩).2 ∧
    (Val.dict [("y", Val.str "art")], dictGetD (eventSpec ctxA specA0) "outputs" (Val.dict []))
        ∈ buildStatusCalls (handler_job envA ctxA ⟨EventBody.bytes "EV"⟩).2 := by
  have h := handler_job_calling_conventions envA ctxA "EV" bodyA specA0 (Val.str "p1")
    funcPlain [("x", Val.num 5)] rfl rfl rfl rfl rfl
  have h2 := h.1 rfl (Val.num 42) rfl [Val.str "y"] rfl
  exact ⟨h2.1, h2.2.1, h2.2.2 (Val.dict [("y", Val.str "art")]) rfl⟩

/-- C9: when every stage of the invocation succeeds — initialization,
function configuration, input composition, execution (either calling
convention), status building, refresh, set-status and save — the
handler returns exactly the fixed-shape success response: body `"OK"`,
empty headers, content type `text/plain`, status code 200. -/
theorem handler_job_success_response_shape (env : Env) (context : Context) (raw : String)
    (body : Val) (sp0 : List (String × Val)) (project : Val) (fnc : Func)
    (fnc_args : List (String × Val)) (results : Val)
    (status refreshed : List (String × Val))
    (hj : env.json_loads raw = Except.ok body)
    (hsp : getItem body "spec" = Except.ok (Val.dict sp0))
    (hpr : getItem body "project" = Except.ok project)
    (hg : env.get_function_from_source context.root
      (dictGetD (eventSpec context sp0) "source" (Val.dict [])) = Except.ok fnc)
    (hi : env.compose_inputs (dictGetD (eventSpec context sp0) "inputs" (Val.dict []))
      (dictGetD (eventSpec context sp0) "parameters" (Val.dict [])) fnc =
        Except.ok fnc_args)
    (hex : ExecOk env (eventSpec context sp0) project fnc fnc_args results)
    (hb : env.build_status results
      (dictGetD (eventSpec context sp0) "outputs" (Val.dict [])) = Except.ok status)
    (hr : env.refresh = Except.ok refreshed)
    (hs : env.set_status (pyMerge status refreshed) = Except.ok ())
    (hv : env.save = Except.ok ()) :
    (handler_job env context ⟨EventBody.bytes raw⟩).1 =
      Outcome.response { body := "OK", headers := [], content_type := "text/plain",
                         status_code := 200 } := by
  rw [handler_job_initialize_red env context raw body sp0 project hj hsp hpr,
    stage_configure_ok_red env context (eventSpec context sp0) project fnc hg,
    stage_inputs_ok_red env (eventSpec context sp0) project fnc fnc_args hi,
    stage_execute_ok_red env (eventSpec context sp0) project fnc fnc_args results hex,
    stage_build_status_ok_red env (eventSpec context sp0) results status hb]
  exact stage_set_status_ok env status refreshed hr hs hv

theorem handler_job_success_response_shape_witness :
    (handler_job envA ctxA ⟨EventBody.bytes "EV"⟩).1 =
      Outcome.response { body := "OK", headers := [], content_type := "text/plain",
                         status_code := 200 } :=
  handler_job_success_response_shape envA ctxA "EV" bodyA specA0 (Val.str "p1") funcPlain
    [("x", Val.num 5)] (Val.dict [("y", Val.str "art")])
    [("state", Val.str "completed"), ("results", Val.dict [("y", Val.str "art")])]
    [("state", Val.str "running")] rfl rfl rfl rfl rfl
    (Or.inr ⟨rfl, Val.num 42, [Val.str "y"], rfl, rfl, rfl⟩) rfl rfl rfl rfl

/-- C10: when the source spec mapping has no `"init_function"` key,
`get_init_function` returns `None` with no effect at all (no function
source saved, nothing imported), and the whole init-function step of
`init_context` is skipped: its trace holds only requirement installs
and the root mkdir. -/
theorem get_init_function_skip (env : InitEnv) (path : String) (sp : List (String × Val))
    (hno : dictHasKey sp "init_function" = false) :
    get_init_function env path (Val.dict sp) = (Except.ok none, []) ∧
    ∀ (run_spec : List (String × Val)) (root : String),
      dictGetD run_spec "source" (Val.dict []) = Val.dict sp →
      ∀ e ∈ (init_context env run_spec root).2,
        e = InitEffect.mkdirRoot ∨ ∃ r, e = InitEffect.pipInstall r := by
  have hskip : get_init_function env path (Val.dict sp) = (Except.ok none, []) := by
    simp [get_init_function, pyContains, hno]
  refine ⟨hskip, ?_⟩
  intro run_spec root hsrc e he
  rcases hreq : pyList (dictGetD run_spec "requirements" (Val.arr [])) with exc | reqs
  · have h0 : (init_context env run_spec root).2 = [] := by
      simp [init_context, hreq]
    rw [h0] at he
    exact absurd he (List.not_mem_nil e)
  · have hskip2 : get_init_function env root (dictGetD run_spec "source" (Val.dict [])) =
        (Except.ok none, []) := by
      rw [hsrc]
      simp [get_init_function, pyContains, hno]
    have h0 : (init_context env run_spec root).2 =
        reqs.map InitEffect.pipInstall ++ [InitEffect.mkdirRoot] := by
      simp [init_context, hreq, hskip2]
    rw [h0] at he
    rcases List.mem_append.mp he with h | h
    · rcases List.mem_map.mp h with ⟨r, hr, hre⟩
      exact Or.inr ⟨r, hre.symm⟩
    · exact Or.inl (List.mem_singleton.mp h)

theorem get_init_function_skip_witness :
    get_init_function envInit "/rt" (Val.dict [("handler", Val.str "h")]) =
        (Except.ok none, []) ∧
    ∀ e ∈ (init_context envInit [("source", Val.dict [("handler", Val.str "h")])] "/rt").2,
      e = InitEffect.mkdirRoot ∨ ∃ r, e = InitEffect.pipInstall r := by
  have h := get_init_function_skip envInit "/rt" [("handler", Val.str "h")] (by decide)
  exact ⟨h.1, h.2 [("source", Val.dict [("handler", Val.str "h")])] "/rt" (by decide)⟩

end RunHandler
